import Mathlib

deriving instance DecidableEq for Except

/-!
Verification of the antfarm pipeline engine (src/installer/step-ops.ts) and the
spawner's post-spawn database transactions (src/daemon/spawner.ts).

The embedding models the persistent SQLite state (runs, steps, stories,
daemon_active_sessions) as lists of rows and each operation as a pure state
transformer.  Event emission, logging, cron teardown and progress-file
archival are external side effects that never touch the database; they are
omitted.  External inputs (file reads, git diffs, the wall clock, the
randomUUID supply) are passed in as explicit parameters.  SQL timestamps
(datetime, julianday differences) are modelled as a single Nat millisecond
clock.  JSON.parse is modelled by an executable parser for the JSON subset the
engine exchanges (null, booleans, integer numerals, strings without escapes
beyond backslash and quote, arrays, objects).
-/

namespace Antfarm

/-- Model of a JavaScript JSON value as produced by JSON.parse. -/
inductive Json where
  | null : Json
  | bool (b : Bool) : Json
  | num (n : Int) : Json
  | str (s : String) : Json
  | arr (elems : List Json) : Json
  | obj (fields : List (String × Json)) : Json
deriving Repr, Inhabited

mutual

/-- Structural equality of JSON values (the SameValueZero equality JS sets use,
restricted to JSON data). -/
def jsonBeq : Json → Json → Bool
  | .null, .null => true
  | .bool a, .bool b => a == b
  | .num a, .num b => a == b
  | .str a, .str b => a == b
  | .arr a, .arr b => jsonBeqList a b
  | .obj a, .obj b => jsonBeqFields a b
  | _, _ => false

/-- Elementwise equality of JSON arrays. -/
def jsonBeqList : List Json → List Json → Bool
  | [], [] => true
  | x :: xs, y :: ys => jsonBeq x y && jsonBeqList xs ys
  | _, _ => false

/-- Memberwise equality of JSON objects. -/
def jsonBeqFields : List (String × Json) → List (String × Json) → Bool
  | [], [] => true
  | (k1, v1) :: xs, (k2, v2) :: ys => k1 == k2 && jsonBeq v1 v2 && jsonBeqFields xs ys
  | _, _ => false

end

instance : BEq Json := ⟨jsonBeq⟩

/-- Left and right curly brace characters. -/
def lbrace : Char := Char.ofNat 123

/-- Right curly brace character. -/
def rbrace : Char := Char.ofNat 125

/-- Split a string at newline characters (String.prototype.split with the
one-character separator the engine uses). -/
def splitLinesAux : List Char → List Char → List String
  | [], acc => [String.mk acc.reverse]
  | c :: cs, acc =>
    if c == '\n' then String.mk acc.reverse :: splitLinesAux cs []
    else splitLinesAux cs (c :: acc)

/-- String.prototype.split on a newline separator. -/
def splitLines (s : String) : List String :=
  splitLinesAux s.toList []

/-- One-character whitespace class of String.prototype.trim restricted to the
ASCII whitespace the engine produces. -/
def jsIsWs (c : Char) : Bool :=
  c == ' ' || c == '\t' || c == '\n' || c == '\r' || c == '\x0b' || c == '\x0c'

/-- JavaScript String.prototype.trim. -/
def jsTrim (s : String) : String :=
  String.mk (((s.toList.dropWhile jsIsWs).reverse.dropWhile jsIsWs).reverse)

/-- Character-list prefix test. -/
def charsStart : List Char → List Char → Bool
  | _, [] => true
  | [], _ :: _ => false
  | c :: cs, d :: ds => c == d && charsStart cs ds

/-- String.prototype.startsWith. -/
def strStartsWith (s p : String) : Bool :=
  charsStart s.toList p.toList

/-- ASCII lowercase of one character. -/
def asciiLowerChar (c : Char) : Char :=
  if 'A' ≤ c && c ≤ 'Z' then Char.ofNat (c.toNat + 32) else c

/-- String.prototype.toLowerCase on the ASCII keys the engine lowercases. -/
def asciiToLower (s : String) : String :=
  String.mk (s.toList.map asciiLowerChar)

/-- JavaScript object / map: set a key, overwriting in place (insertion order
preserved, as for JS string-keyed objects). -/
def ctxSet (ctx : List (String × String)) (k v : String) : List (String × String) :=
  if ctx.any (fun p => p.1 == k) then
    ctx.map (fun p => if p.1 == k then (k, v) else p)
  else
    ctx ++ [(k, v)]

/-- JavaScript object property read. -/
def ctxGet (ctx : List (String × String)) (k : String) : Option String :=
  (ctx.find? (fun p => p.1 == k)).map (fun p => p.2)

/-- JavaScript delete of an object property. -/
def ctxDel (ctx : List (String × String)) (k : String) : List (String × String) :=
  ctx.filter (fun p => !(p.1 == k))

/-- JavaScript truthiness of a string read off a context object
(undefined and the empty string are falsy). -/
def strTruthy : Option String → Bool
  | none => false
  | some v => v != ""

/-- JSON object member access with overwrite-on-duplicate semantics handled at
parse time, so the first match is the JS value. -/
def objGet (fields : List (String × Json)) (k : String) : Option Json :=
  (fields.find? (fun p => p.1 == k)).map (fun p => p.2)

/-- JavaScript property access `v.k`: throws a TypeError on null, yields
undefined (`none`) on non-objects and missing members. -/
def jsGetProp (v : Json) (k : String) : Except String (Option Json) :=
  match v with
  | .null => .error ("TypeError: Cannot read properties of null (reading " ++ k ++ ")")
  | .obj fields => .ok (objGet fields k)
  | _ => .ok none

/-- JavaScript truthiness of a possibly-undefined JSON value. -/
def jsTruthy : Option Json → Bool
  | none => false
  | some .null => false
  | some (.bool b) => b
  | some (.num n) => n != 0
  | some (.str s) => s != ""
  | some (.arr _) => true
  | some (.obj _) => true

/-- JavaScript nullish coalescing `a ?? b` on possibly-undefined JSON values. -/
def jsNullish (a b : Option Json) : Option Json :=
  match a with
  | none => b
  | some .null => b
  | some v => some v

mutual

/-- JavaScript string coercion (template literals, SQLite text binding) of a
JSON value. -/
def jsStr : Json → String
  | .null => "null"
  | .bool b => if b then "true" else "false"
  | .num n => toString n
  | .str s => s
  | .arr l => String.intercalate "," (jsStrList l)
  | .obj _ => "[object Object]"

/-- Element coercions inside Array.prototype.toString (null renders empty). -/
def jsStrList : List Json → List String
  | [] => []
  | .null :: xs => "" :: jsStrList xs
  | x :: xs => jsStr x :: jsStrList xs

end

/-- JSON whitespace. -/
def isJsonWs (c : Char) : Bool :=
  c == ' ' || c == '\t' || c == '\n' || c == '\r'

/-- Parse the string body after an opening quote; handles the escapes
backslash-quote and backslash-backslash that the engine's payloads use. -/
def parseJsonString : List Char → Option (String × List Char)
  | [] => none
  | c :: rest =>
    if c == '\"' then some ("", rest)
    else if c == '\\' then
      match rest with
      | [] => none
      | e :: rest2 =>
        if e == '\"' || e == '\\' || e == '/' then
          match parseJsonString rest2 with
          | some (s, r) => some (String.mk [e] ++ s, r)
          | none => none
        else if e == 'n' then
          match parseJsonString rest2 with
          | some (s, r) => some ("\n" ++ s, r)
          | none => none
        else if e == 't' then
          match parseJsonString rest2 with
          | some (s, r) => some ("\t" ++ s, r)
          | none => none
        else none
    else
      match parseJsonString rest with
      | some (s, r) => some (String.mk [c] ++ s, r)
      | none => none

/-- Digits of an integer numeral. -/
def parseDigits (cs : List Char) : Option (Nat × List Char) :=
  let ds := cs.takeWhile Char.isDigit
  if ds.isEmpty then none
  else some (ds.foldl (fun a c => a * 10 + (c.toNat - 48)) 0, cs.drop ds.length)

mutual

/-- Recursive-descent JSON value parser (fuel-indexed to make the recursion
structural). -/
def parseJsonVal (fuel : Nat) (cs : List Char) : Option (Json × List Char) :=
  match fuel with
  | 0 => none
  | fuel + 1 =>
    let cs := cs.dropWhile isJsonWs
    match cs with
    | [] => none
    | c :: rest =>
      if c == 'n' then
        match rest with
        | 'u' :: 'l' :: 'l' :: r => some (.null, r)
        | _ => none
      else if c == 't' then
        match rest with
        | 'r' :: 'u' :: 'e' :: r => some (.bool true, r)
        | _ => none
      else if c == 'f' then
        match rest with
        | 'a' :: 'l' :: 's' :: 'e' :: r => some (.bool false, r)
        | _ => none
      else if c == '\"' then
        match parseJsonString rest with
        | some (s, r) => some (.str s, r)
        | none => none
      else if c == '-' then
        match parseDigits rest with
        | some (n, r) => some (.num (-(n : Int)), r)
        | none => none
      else if c.isDigit then
        match parseDigits (c :: rest) with
        | some (n, r) => some (.num (n : Int), r)
        | none => none
      else if c == '[' then
        let r := rest.dropWhile isJsonWs
        match r with
        | ']' :: r2 => some (.arr [], r2)
        | _ => parseJsonArr fuel r []
      else if c == lbrace then
        let r := rest.dropWhile isJsonWs
        match r with
        | c2 :: r2 =>
          if c2 == rbrace then some (.obj [], r2)
          else parseJsonObj fuel r []
        | [] => none
      else none

/-- Parse the elements of a non-empty JSON array. -/
def parseJsonArr (fuel : Nat) (cs : List Char) (acc : List Json) :
    Option (Json × List Char) :=
  match fuel with
  | 0 => none
  | fuel + 1 =>
    match parseJsonVal fuel cs with
    | none => none
    | some (v, r) =>
      let r := r.dropWhile isJsonWs
      match r with
      | ',' :: r2 => parseJsonArr fuel r2 (acc ++ [v])
      | ']' :: r2 => some (.arr (acc ++ [v]), r2)
      | _ => none

/-- Parse the members of a non-empty JSON object; duplicate keys overwrite in
place as for JSON.parse. -/
def parseJsonObj (fuel : Nat) (cs : List Char) (acc : List (String × Json)) :
    Option (Json × List Char) :=
  match fuel with
  | 0 => none
  | fuel + 1 =>
    let cs := cs.dropWhile isJsonWs
    match cs with
    | '\"' :: r =>
      match parseJsonString r with
      | none => none
      | some (k, r2) =>
        let r2 := r2.dropWhile isJsonWs
        match r2 with
        | ':' :: r3 =>
          match parseJsonVal fuel r3 with
          | none => none
          | some (v, r4) =>
            let acc2 :=
              if acc.any (fun p => p.1 == k) then
                acc.map (fun p => if p.1 == k then (k, v) else p)
              else acc ++ [(k, v)]
            let r4 := r4.dropWhile isJsonWs
            match r4 with
            | ',' :: r5 => parseJsonObj fuel r5 acc2
            | c :: r5 =>
              if c == rbrace then some (.obj acc2, r5) else none
            | [] => none
        | _ => none
    | _ => none

end

/-- Model of JSON.parse: parse one value and require only whitespace after. -/
def jsonParse (s : String) : Except String Json :=
  let cs := s.toList
  match parseJsonVal (cs.length + 1) cs with
  | none => .error "Unexpected token in JSON"
  | some (v, rest) =>
    if (rest.dropWhile isJsonWs).isEmpty then .ok v
    else .error "Unexpected non-whitespace character after JSON"

/-- Step lifecycle states stored in the steps.status column
(src/installer/types.ts StepStatus plus the initial waiting state the
scheduler writes). -/
inductive StepStatus where
  | waiting | pending | claiming | running | done | failed
deriving Repr, DecidableEq, Inhabited

/-- Story lifecycle states stored in the stories.status column. -/
inductive StoryStatus where
  | pending | claiming | running | done | failed
deriving Repr, DecidableEq, Inhabited

/-- Run lifecycle states stored in the runs.status column. -/
inductive RunStatus where
  | running | completed | failed | cancelled
deriving Repr, DecidableEq, Inhabited

/-- Loop configuration (src/installer/types.ts LoopConfig), stored JSON-encoded
in steps.loop_config; modelled structurally. -/
structure LoopConfig where
  over : String
  verifyEach : Bool := false
  verifyStep : Option String := none
deriving Repr, DecidableEq, Inhabited

/-- A row of the runs table.  The context column holds a JSON-encoded string
map; modelled as an association list with JS object semantics. -/
structure RunRow where
  id : String
  workflowId : String
  status : RunStatus
  context : List (String × String)
  updatedAt : Nat
deriving Repr, DecidableEq, Inhabited

/-- A row of the steps table. -/
structure StepRow where
  id : String
  runId : String
  stepId : String
  agentId : String
  stepIndex : Nat
  inputTemplate : String
  stepType : String
  loopConfig : Option LoopConfig
  status : StepStatus
  output : Option String
  retryCount : Nat
  maxRetries : Nat
  abandonedCount : Nat
  currentStoryId : Option String
  updatedAt : Nat
deriving Repr, DecidableEq, Inhabited

/-- A row of the stories table.  story_id, title and description are bound
from JSON.parse output, so they are kept as JSON values; acceptance_criteria
is stored JSON-encoded and read back with JSON.parse, modelled structurally. -/
structure StoryRow where
  id : String
  runId : String
  storyIndex : Nat
  storyId : Json
  title : Json
  description : Json
  acceptanceCriteria : List Json
  status : StoryStatus
  output : Option String
  retryCount : Nat
  maxRetries : Nat
  updatedAt : Nat
deriving Repr, Inhabited

/-- A row of the daemon_active_sessions table. -/
structure SessionRow where
  agentId : String
  stepId : String
  runId : String
  storyId : Option String
  spawnedBy : String
  sessionId : String
  spawnedAt : Nat
deriving Repr, DecidableEq, Inhabited

/-- The persistent database state.  nextUuid models the crypto.randomUUID
supply for inserted story primary keys. -/
structure Db where
  runs : List RunRow
  steps : List StepRow
  stories : List StoryRow
  sessions : List SessionRow
  nextUuid : Nat := 0
deriving Repr, Inhabited

/-- SELECT by primary key on runs (first match in row order). -/
def findRun (db : Db) (runId : String) : Option RunRow :=
  db.runs.find? (fun r => r.id == runId)

/-- SELECT by primary key on steps. -/
def findStep (db : Db) (stepId : String) : Option StepRow :=
  db.steps.find? (fun s => s.id == stepId)

/-- SELECT by primary key on stories. -/
def findStory (db : Db) (storyId : String) : Option StoryRow :=
  db.stories.find? (fun s => s.id == storyId)

/-- UPDATE steps SET ... WHERE p. -/
def updateSteps (db : Db) (p : StepRow → Bool) (f : StepRow → StepRow) : Db :=
  { db with steps := db.steps.map (fun s => if p s then f s else s) }

/-- UPDATE stories SET ... WHERE p. -/
def updateStories (db : Db) (p : StoryRow → Bool) (f : StoryRow → StoryRow) : Db :=
  { db with stories := db.stories.map (fun s => if p s then f s else s) }

/-- UPDATE runs SET ... WHERE p. -/
def updateRuns (db : Db) (p : RunRow → Bool) (f : RunRow → RunRow) : Db :=
  { db with runs := db.runs.map (fun r => if p r then f r else r) }

/-- ORDER BY the given index ASC LIMIT 1: the first row carrying the minimal
index value. -/
def minBy (l : List α) (idx : α → Nat) : Option α :=
  l.foldl (fun acc s =>
    match acc with
    | none => some s
    | some b => if idx s < idx b then some s else acc) none

/-- ORDER BY updated_at DESC LIMIT 1: the first row carrying the maximal
timestamp. -/
def maxByUpdated (l : List StoryRow) : Option StoryRow :=
  l.foldl (fun acc s =>
    match acc with
    | none => some s
    | some b => if s.updatedAt > b.updatedAt then some s else acc) none

/-- Character class of the key regexes: [A-Z_]. -/
def isKeyChar (c : Char) : Bool :=
  ('A' ≤ c && c ≤ 'Z') || c == '_'

/-- One-character horizontal whitespace as matched by the JS regex class
backslash-s applied to newline-free lines. -/
def isRegexWs (c : Char) : Bool :=
  c == ' ' || c == '\t' || c == '\r' || c == '\x0b' || c == '\x0c'

/-- Match a line against the KEY regex with optional whitespace after the
colon, returning the captured key and value. -/
def splitKeyLine (line : String) : Option (String × String) :=
  let cs := line.toList
  let key := cs.takeWhile isKeyChar
  if key.isEmpty then none
  else
    match cs.drop key.length with
    | ':' :: rest => some (String.mk key, String.mk (rest.dropWhile isRegexWs))
    | _ => none

/-- Match a line against the break regex of the STORIES_JSON collector, which
requires one whitespace character right after the colon. -/
def isBreakLine (line : String) : Bool :=
  let cs := line.toList
  let key := cs.takeWhile isKeyChar
  if key.isEmpty then false
  else
    match cs.drop key.length with
    | ':' :: c :: _ => isRegexWs c
    | _ => false

/-- Flush the pending KEY accumulation into the result map, skipping keys that
start with STORIES_JSON (handled separately). -/
def commitPending (pending : Option (String × String))
    (acc : List (String × String)) : List (String × String) :=
  match pending with
  | none => acc
  | some (k, v) =>
    if strStartsWith k "STORIES_JSON" then acc
    else ctxSet acc (asciiToLower k) (jsTrim v)

/-- Line loop of parseOutputKeyValues. -/
def parseOutputLoop : List String → Option (String × String) →
    List (String × String) → List (String × String)
  | [], pending, acc => commitPending pending acc
  | line :: rest, pending, acc =>
    match splitKeyLine line with
    | some (k, v) => parseOutputLoop rest (some (k, v)) (commitPending pending acc)
    | none =>
      match pending with
      | some (k, v) => parseOutputLoop rest (some (k, v ++ "\n" ++ line)) acc
      | none => parseOutputLoop rest none acc

/-- Parse KEY: value lines from step output with multi-line value support
(src/installer/step-ops.ts parseOutputKeyValues). -/
def parseOutputKeyValues (output : String) : List (String × String) :=
  parseOutputLoop (splitLines output) none []

/-- Word characters of the template placeholder regex. -/
def isWordChar (c : Char) : Bool :=
  c.isAlpha || c.isDigit || c == '_'

/-- Require the two closing braces of a placeholder. -/
def closeBraces : List Char → List Char → Option (String × List Char)
  | c1 :: c2 :: rest, acc =>
    if c1 == rbrace && c2 == rbrace then some (String.mk acc, rest) else none
  | _, _ => none

/-- Consume further dot-separated word segments of a placeholder key, then the
closing braces (fuelled by the character count to keep the recursion
structural). -/
def matchSegments : Nat → List Char → List Char → Option (String × List Char)
  | 0, l, acc => closeBraces l acc
  | fuel + 1, '.' :: more, acc =>
    let seg := more.takeWhile isWordChar
    if seg.isEmpty then closeBraces ('.' :: more) acc
    else matchSegments fuel (more.drop seg.length) (acc ++ '.' :: seg)
  | _ + 1, other, acc => closeBraces other acc

/-- Try to match a placeholder of shape double-brace, word segments joined by
dots, double-brace at the head of the character list; on success return the
captured key and the remaining characters. -/
def matchPlaceholder (cs : List Char) : Option (String × List Char) :=
  match cs with
  | c1 :: c2 :: rest =>
    if c1 == lbrace && c2 == lbrace then
      let seg := rest.takeWhile isWordChar
      if seg.isEmpty then none
      else matchSegments rest.length (rest.drop seg.length) seg
    else none
  | _ => none

/-- Replacement value for one placeholder key
(src/installer/step-ops.ts resolveTemplate callback). -/
def resolveKey (context : List (String × String)) (key : String) : String :=
  if (ctxGet context key).isSome then (ctxGet context key).getD ""
  else if (ctxGet context (asciiToLower key)).isSome then (ctxGet context (asciiToLower key)).getD ""
  else "[missing: " ++ key ++ "]"

/-- Left-to-right scan of the template, fuelled by the character count. -/
def resolveScan (context : List (String × String)) :
    Nat → List Char → List Char
  | 0, _ => []
  | _, [] => []
  | fuel + 1, c :: cs =>
    match matchPlaceholder (c :: cs) with
    | some (key, rest) =>
      (resolveKey context key).toList ++ resolveScan context fuel rest
    | none => c :: resolveScan context fuel cs

/-- Resolve double-brace placeholders in a template against a context object
(src/installer/step-ops.ts resolveTemplate). -/
def resolveTemplate (template : String) (context : List (String × String)) :
    String :=
  String.mk (resolveScan context template.length template.toList)

/-- Result record of completeStep and advancePipeline. -/
structure PipeResult where
  advanced : Bool
  runCompleted : Bool
deriving Repr, DecidableEq, Inhabited

/-- Result record of failStep. -/
structure FailResult where
  retrying : Bool
  runFailed : Bool
deriving Repr, DecidableEq, Inhabited

/-- SELECT the lowest-indexed waiting step of a run. -/
def minWaitingStep (db : Db) (runId : String) : Option StepRow :=
  minBy (db.steps.filter (fun s => s.runId == runId && s.status == .waiting))
    (fun s => s.stepIndex)

/-- Membership of the status IN (failed, pending, running) clause. -/
def isIncompleteStatus (st : StepStatus) : Bool :=
  st == .failed || st == .pending || st == .running

/-- SELECT any step of the run in an incomplete status (LIMIT 1). -/
def findIncompleteStep (db : Db) (runId : String) : Option StepRow :=
  db.steps.find? (fun s => s.runId == runId && isIncompleteStatus s.status)

/-- Advance the pipeline (src/installer/step-ops.ts advancePipeline): guard
failed and cancelled runs, then either promote the lowest-indexed waiting
step to pending, report nothing to do, or complete the run.  Progress-file
archival and cron teardown on completion are external side effects. -/
def advancePipeline (db : Db) (runId : String) (now : Nat) : Db × PipeResult :=
  let runStatus := (findRun db runId).map (fun r => r.status)
  if runStatus == some .failed || runStatus == some .cancelled then
    (db, ⟨false, false⟩)
  else
    match minWaitingStep db runId, findIncompleteStep db runId with
    | none, some _ => (db, ⟨false, false⟩)
    | some next, _ =>
      (updateSteps db (fun s => s.id == next.id)
        (fun s => { s with status := .pending, updatedAt := now }), ⟨true, false⟩)
    | none, none =>
      (updateRuns db (fun r => r.id == runId)
        (fun r => { r with status := .completed, updatedAt := now }), ⟨false, true⟩)

/-- Property access on a JSON value already known not to be null. -/
def jsProp (v : Json) (k : String) : Option Json :=
  match v with
  | .obj fields => objGet fields k
  | _ => none

/-- Array.isArray on a possibly-undefined JSON value. -/
def isJsonArray : Option Json → Bool
  | some (.arr _) => true
  | _ => false

/-- Elements of a JSON array value (empty for non-arrays). -/
def jsonArrElems : Option Json → List Json
  | some (.arr l) => l
  | _ => []

/-- Test for the JSON null value (property access on null throws). -/
def jsonIsNull : Json → Bool
  | .null => true
  | _ => false

/-- Validation-and-insert loop over the parsed STORIES_JSON array
(src/installer/step-ops.ts parseAndInsertStories).  Each insert executes
immediately, so rows inserted before a failing entry persist. -/
def insertStoriesLoop (runId : String) (now : Nat) :
    Db → List Json → Nat → List Json → Db × Except String Unit
  | db, [], _, _ => (db, .ok ())
  | db, s :: rest, i, seen =>
    if jsonIsNull s then
      (db, .error "TypeError: Cannot read properties of null (reading acceptanceCriteria)")
    else
      let ac := jsNullish (jsProp s "acceptanceCriteria") (jsProp s "acceptance_criteria")
      if !(jsTruthy (jsProp s "id")) || !(jsTruthy (jsProp s "title")) ||
          !(jsTruthy (jsProp s "description")) || !(isJsonArray ac) ||
          (jsonArrElems ac).length == 0 then
        (db, .error ("STORIES_JSON story at index " ++ toString i ++
          " missing required fields (id, title, description, acceptanceCriteria)"))
      else
        let sid := (jsProp s "id").getD .null
        if seen.any (fun x => jsonBeq x sid) then
          (db, .error ("STORIES_JSON has duplicate story id \"" ++ jsStr sid ++ "\""))
        else
          let row : StoryRow := {
            id := "uuid-" ++ toString db.nextUuid
            runId := runId
            storyIndex := i
            storyId := sid
            title := (jsProp s "title").getD .null
            description := (jsProp s "description").getD .null
            acceptanceCriteria := jsonArrElems ac
            status := .pending
            output := none
            retryCount := 0
            maxRetries := 2
            updatedAt := now }
          insertStoriesLoop runId now
            { db with stories := db.stories ++ [row], nextUuid := db.nextUuid + 1 }
            rest (i + 1) (seen ++ [sid])

/-- Parse STORIES_JSON from step output and insert stories
(src/installer/step-ops.ts parseAndInsertStories).  Collects the JSON text
from the prefixed line plus following lines up to the next KEY boundary. -/
def parseAndInsertStories (db : Db) (output : String) (runId : String)
    (now : Nat) : Db × Except String Unit :=
  let lines := splitLines output
  match lines.findIdx? (fun l => strStartsWith l "STORIES_JSON:") with
  | none => (db, .ok ())
  | some startIdx =>
    let firstLine := jsTrim ((lines.getD startIdx "").drop "STORIES_JSON:".length)
    let tailLines := (lines.drop (startIdx + 1)).takeWhile (fun l => !(isBreakLine l))
    let jsonText := jsTrim (String.intercalate "\n" (firstLine :: tailLines))
    match jsonParse jsonText with
    | .error e => (db, .error ("Failed to parse STORIES_JSON: " ++ e))
    | .ok (.arr stories) =>
      if stories.length > 20 then
        (db, .error ("STORIES_JSON has " ++ toString stories.length ++
          " stories, max is 20"))
      else insertStoriesLoop runId now db stories 0 []
    | .ok _ => (db, .error "STORIES_JSON must be an array")

/-- Check whether the loop has more stories; if so set the loop step pending,
otherwise mark it done (plus the verify step, if configured) and advance, or
fail loop and run when failed stories remain
(src/installer/step-ops.ts checkLoopContinuation). -/
def checkLoopContinuation (db : Db) (runId : String) (loopStepId : String)
    (now : Nat) : Db × PipeResult :=
  let pendingStory := db.stories.find? (fun s => s.runId == runId && s.status == .pending)
  let loopStatus := (findStep db loopStepId).map (fun s => s.status)
  if pendingStory.isSome then
    if loopStatus == some .failed then (db, ⟨false, false⟩)
    else
      (updateSteps db (fun s => s.id == loopStepId)
        (fun s => { s with status := .pending, updatedAt := now }), ⟨false, false⟩)
  else
    let failedStory := db.stories.find? (fun s => s.runId == runId && s.status == .failed)
    if failedStory.isSome then
      let db := updateSteps db (fun s => s.id == loopStepId)
        (fun s => { s with
          status := .failed
          output := some "Loop cannot continue because one or more stories failed"
          updatedAt := now })
      let db := updateRuns db (fun r => r.id == runId)
        (fun r => { r with status := .failed, updatedAt := now })
      (db, ⟨false, false⟩)
    else
      let db := updateSteps db (fun s => s.id == loopStepId)
        (fun s => { s with status := .done, updatedAt := now })
      let db :=
        match findStep db loopStepId with
        | some loopStep =>
          match loopStep.loopConfig with
          | some lc =>
            if lc.verifyEach && strTruthy lc.verifyStep then
              updateSteps db (fun s => s.runId == runId &&
                  some s.stepId == lc.verifyStep)
                (fun s => { s with status := .done, updatedAt := now })
            else db
          | none => db
        | none => db
      advancePipeline db runId now

/-- Handle verify-each completion (src/installer/step-ops.ts
handleVerifyEachCompletion): reset the verify step to waiting, then either
retry or fail the most recently done story, or clear the feedback and
continue the loop.  The defensive try/catch around the continuation cannot
fire in the pure model and is omitted. -/
def handleVerifyEachCompletion (db : Db) (verifyStep : StepRow)
    (loopStepId : String) (output : String)
    (context : List (String × String)) (now : Nat) : Db × PipeResult :=
  let status := (ctxGet context "status").map asciiToLower
  let db := updateSteps db (fun s => s.id == verifyStep.id)
    (fun s => { s with status := .waiting, output := some output, updatedAt := now })
  if status == some "retry" then
    let lastDoneStory := maxByUpdated
      (db.stories.filter (fun s => s.runId == verifyStep.runId && s.status == .done))
    match lastDoneStory with
    | some st =>
      let newRetry := st.retryCount + 1
      if newRetry > st.maxRetries then
        let db := updateStories db (fun s => s.id == st.id)
          (fun s => { s with status := .failed, retryCount := newRetry, updatedAt := now })
        let db := updateSteps db (fun s => s.id == loopStepId)
          (fun s => { s with status := .failed, updatedAt := now })
        let db := updateRuns db (fun r => r.id == verifyStep.runId)
          (fun r => { r with status := .failed, updatedAt := now })
        (db, ⟨false, false⟩)
      else
        let db := updateStories db (fun s => s.id == st.id)
          (fun s => { s with status := .pending, retryCount := newRetry, updatedAt := now })
        let issues := (ctxGet context "issues").getD output
        let context := ctxSet context "verify_feedback" issues
        let db := updateRuns db (fun r => r.id == verifyStep.runId)
          (fun r => { r with context := context, updatedAt := now })
        let db := updateSteps db (fun s => s.id == loopStepId)
          (fun s => { s with status := .pending, updatedAt := now })
        (db, ⟨false, false⟩)
    | none =>
      let db := updateSteps db (fun s => s.id == loopStepId)
        (fun s => { s with status := .pending, updatedAt := now })
      (db, ⟨false, false⟩)
  else
    let context := ctxDel context "verify_feedback"
    let db := updateRuns db (fun r => r.id == verifyStep.runId)
      (fun r => { r with context := context, updatedAt := now })
    checkLoopContinuation db verifyStep.runId loopStepId now

/-- Single-step tail of completeStep: mark the step done and advance. -/
def completeSingle (db : Db) (step : StepRow) (output : String) (now : Nat) :
    Db × PipeResult :=
  let db := updateSteps db (fun s => s.id == step.id)
    (fun s => { s with status := .done, output := some output, updatedAt := now })
  advancePipeline db step.runId now

/-- Continuation of completeStep after the STORIES_JSON ingestion succeeded:
loop-story completion, verify-each dispatch, or the single-step path.  This
part of the source function performs no throwing operation. -/
def completeStepRest (db : Db) (step : StepRow) (output : String)
    (context : List (String × String)) (now : Nat) : Db × PipeResult :=
  if step.stepType == "loop" && step.currentStoryId.isSome then
    let curId := step.currentStoryId.getD ""
    let db := updateStories db (fun s => s.id == curId)
      (fun s => { s with status := .done, output := some output, updatedAt := now })
    let db := updateSteps db (fun s => s.id == step.id)
      (fun s => { s with
        currentStoryId := none
        output := some output
        updatedAt := now })
    let verifyTarget : Option StepRow :=
      match step.loopConfig with
      | some lc =>
        if lc.verifyEach && strTruthy lc.verifyStep then
          db.steps.find? (fun s => s.runId == step.runId &&
            some s.stepId == lc.verifyStep)
        else none
      | none => none
    match verifyTarget with
    | some vs =>
      let db := updateSteps db (fun s => s.id == vs.id)
        (fun s => { s with status := .pending, updatedAt := now })
      let db := updateSteps db (fun s => s.id == step.id)
        (fun s => { s with status := .running, updatedAt := now })
      (db, ⟨false, false⟩)
    | none => checkLoopContinuation db step.runId step.id now
  else
    let loopStepRow := db.steps.find? (fun s => s.runId == step.runId &&
      s.stepType == "loop")
    match loopStepRow with
    | some lrow =>
      match lrow.loopConfig with
      | some lc =>
        if lc.verifyEach && lc.verifyStep == some step.stepId then
          handleVerifyEachCompletion db step lrow.id output context now
        else completeSingle db step output now
      | none => completeSingle db step output now
    | none => completeSingle db step output now
/-- Complete a step (src/installer/step-ops.ts completeStep): merge KEY lines
into the run context, ingest STORIES_JSON, then hand over to the non-throwing
continuation.  Thrown errors are the error component; database writes made
before a throw persist (no transaction wraps the operation). -/
def completeStep (db : Db) (stepId : String) (output : String) (now : Nat) :
    Db × Except String PipeResult :=
  match findStep db stepId with
  | none => (db, .error ("Step not found: " ++ stepId))
  | some step =>
    if (findRun db step.runId).map (fun r => r.status) == some .failed then
      (db, .ok ⟨false, false⟩)
    else
      match findRun db step.runId with
      | none => (db, .error "TypeError: Cannot read properties of undefined (reading context)")
      | some run =>
        let parsed := parseOutputKeyValues output
        let context := parsed.foldl (fun c kv => ctxSet c kv.1 kv.2) run.context
        let db := updateRuns db (fun r => r.id == step.runId)
          (fun r => { r with context := context, updatedAt := now })
        match parseAndInsertStories db output step.runId now with
        | (db2, .error e) => (db2, .error e)
        | (db2, .ok _) =>
          let p := completeStepRest db2 step output context now
          (p.1, .ok p.2)

/-- Single-step retry logic of failStep. -/
def failStepSingle (db : Db) (step : StepRow) (stepId : String)
    (errorMsg : String) (now : Nat) : Db × Except String FailResult :=
  let newRetryCount := step.retryCount + 1
  if newRetryCount > step.maxRetries then
    let db := updateSteps db (fun s => s.id == stepId)
      (fun s => { s with
        status := .failed
        output := some errorMsg
        retryCount := newRetryCount
        updatedAt := now })
    let db := updateRuns db (fun r => r.id == step.runId)
      (fun r => { r with status := .failed, updatedAt := now })
    (db, .ok ⟨false, true⟩)
  else
    let db := updateSteps db (fun s => s.id == stepId)
      (fun s => { s with
        status := .pending
        retryCount := newRetryCount
        updatedAt := now })
    (db, .ok ⟨true, false⟩)

/-- Fail a step (src/installer/step-ops.ts failStep): per-story retry for loop
steps with a current story, per-step retry otherwise.  No terminal-run guard
exists in this operation. -/
def failStep (db : Db) (stepId : String) (errorMsg : String) (now : Nat) :
    Db × Except String FailResult :=
  match findStep db stepId with
  | none => (db, .error ("Step not found: " ++ stepId))
  | some step =>
    if step.stepType == "loop" && step.currentStoryId.isSome then
      match findStory db (step.currentStoryId.getD "") with
      | some story =>
        let newRetry := story.retryCount + 1
        if newRetry > story.maxRetries then
          let db := updateStories db (fun s => s.id == story.id)
            (fun s => { s with
              status := .failed
              retryCount := newRetry
              updatedAt := now })
          let db := updateSteps db (fun s => s.id == stepId)
            (fun s => { s with
              status := .failed
              output := some errorMsg
              currentStoryId := none
              updatedAt := now })
          let db := updateRuns db (fun r => r.id == step.runId)
            (fun r => { r with status := .failed, updatedAt := now })
          (db, .ok ⟨false, true⟩)
        else
          let db := updateStories db (fun s => s.id == story.id)
            (fun s => { s with
              status := .pending
              retryCount := newRetry
              updatedAt := now })
          let db := updateSteps db (fun s => s.id == stepId)
            (fun s => { s with
              status := .pending
              currentStoryId := none
              updatedAt := now })
          (db, .ok ⟨true, false⟩)
      | none => failStepSingle db step stepId errorMsg now
    else failStepSingle db step stepId errorMsg now

/-- Cap on abandonment resets before a step is failed
(src/installer/step-ops.ts MAX_ABANDON_RESETS). -/
def MAX_ABANDON_RESETS : Nat := 5

/-- SELECT of running steps whose updated_at is older than the threshold. -/
def abandonedStepsQuery (db : Db) (now thresholdMs : Nat) : List StepRow :=
  db.steps.filter (fun s => s.status == .running && now - s.updatedAt > thresholdMs)

/-- SELECT of running stories whose updated_at is older than the threshold. -/
def abandonedStoriesQuery (db : Db) (now thresholdMs : Nat) : List StoryRow :=
  db.stories.filter (fun s => s.status == .running && now - s.updatedAt > thresholdMs)

/-- SELECT of done loop steps in running runs with no later pending or running
step but a later waiting step (the stuck-pipeline query). -/
def stuckLoopsQuery (db : Db) : List StepRow :=
  db.steps.filter (fun s =>
    s.stepType == "loop" && s.status == .done &&
    ((findRun db s.runId).map (fun r => r.status) == some .running) &&
    !(db.steps.any (fun s2 => s2.runId == s.runId && s2.stepIndex > s.stepIndex &&
      (s2.status == .pending || s2.status == .running))) &&
    db.steps.any (fun s3 => s3.runId == s.runId && s3.stepIndex > s.stepIndex &&
      s3.status == .waiting))

/-- Single-step branch of the abandonment sweep: bump abandoned_count, fail
step and run at the cap, otherwise reset the step to pending leaving
retry_count untouched. -/
def sweepSingle (db : Db) (step : StepRow) (now : Nat) : Db :=
  let newAbandonCount := step.abandonedCount + 1
  if newAbandonCount ≥ MAX_ABANDON_RESETS then
    let db := updateSteps db (fun s => s.id == step.id)
      (fun s => { s with
        status := .failed
        output := some ("Agent abandoned step without completing (" ++
          toString newAbandonCount ++ " times)")
        abandonedCount := newAbandonCount
        updatedAt := now })
    updateRuns db (fun r => r.id == step.runId)
      (fun r => { r with status := .failed, updatedAt := now })
  else
    updateSteps db (fun s => s.id == step.id)
      (fun s => { s with
        status := .pending
        abandonedCount := newAbandonCount
        updatedAt := now })

/-- Loop-iteration body of the abandoned-step sweep
(src/installer/step-ops.ts cleanupAbandonedSteps, first pass): skip loop
steps that wait on a pending or running verify step, apply per-story retry to
loop steps with a current story, and the abandoned-count logic otherwise. -/
def sweepOneStep (db : Db) (step : StepRow) (now : Nat) : Db :=
  let skip :=
    if step.stepType == "loop" && step.currentStoryId == none then
      match step.loopConfig with
      | some lc =>
        if lc.verifyEach && strTruthy lc.verifyStep then
          match db.steps.find? (fun s => s.runId == step.runId &&
              some s.stepId == lc.verifyStep) with
          | some vs => vs.status == .pending || vs.status == .running
          | none => false
        else false
      | none => false
    else false
  if skip then db
  else if step.stepType == "loop" && step.currentStoryId.isSome then
    match findStory db (step.currentStoryId.getD "") with
    | some story =>
      let newRetry := story.retryCount + 1
      if newRetry > story.maxRetries then
        let db := updateStories db (fun s => s.id == story.id)
          (fun s => { s with
            status := .failed
            retryCount := newRetry
            updatedAt := now })
        let db := updateSteps db (fun s => s.id == step.id)
          (fun s => { s with
            status := .failed
            output := some "Story abandoned and retries exhausted"
            currentStoryId := none
            updatedAt := now })
        updateRuns db (fun r => r.id == step.runId)
          (fun r => { r with status := .failed, updatedAt := now })
      else
        let db := updateStories db (fun s => s.id == story.id)
          (fun s => { s with
            status := .pending
            retryCount := newRetry
            updatedAt := now })
        updateSteps db (fun s => s.id == step.id)
          (fun s => { s with
            status := .pending
            currentStoryId := none
            updatedAt := now })
    | none => sweepSingle db step now
  else sweepSingle db step now

/-- Find steps that have been running for too long and reset them
(src/installer/step-ops.ts cleanupAbandonedSteps): the abandoned-step pass,
the abandoned-story pass, then stuck-pipeline recovery. -/
def cleanupAbandonedSteps (db : Db) (now thresholdMs : Nat) : Db :=
  let db := (abandonedStepsQuery db now thresholdMs).foldl
    (fun db step => sweepOneStep db step now) db
  let db := (abandonedStoriesQuery db now thresholdMs).foldl
    (fun db story => updateStories db (fun s => s.id == story.id)
      (fun s => { s with status := .pending, updatedAt := now })) db
  (stuckLoopsQuery db).foldl
    (fun db stuck => (advancePipeline db stuck.runId now).1) db

/-- External inputs of claimStep: the cleanup throttle decision, the
abandonment threshold (derived from the installed role timeouts), and the
results of the progress-file read and the git-diff frontend check. -/
structure ClaimEnv where
  runCleanup : Bool
  thresholdMs : Nat
  progress : String
  hasFrontend : String
deriving Repr, Inhabited

/-- Result record of claimStep. -/
structure ClaimResult where
  found : Bool
  stepId : Option String := none
  runId : Option String := none
  resolvedInput : Option String := none
deriving Repr, DecidableEq, Inhabited

/-- Stable insertion into a story list ordered by story_index. -/
def insertByStoryIndex (s : StoryRow) : List StoryRow → List StoryRow
  | [] => [s]
  | t :: ts =>
    if s.storyIndex < t.storyIndex then s :: t :: ts
    else t :: insertByStoryIndex s ts

/-- Sort stories by story_index ascending. -/
def sortByStoryIndex : List StoryRow → List StoryRow
  | [] => []
  | s :: ss => insertByStoryIndex s (sortByStoryIndex ss)

/-- All stories of a run ordered by story_index
(src/installer/step-ops.ts getStories). -/
def getStories (db : Db) (runId : String) : List StoryRow :=
  sortByStoryIndex (db.stories.filter (fun s => s.runId == runId))

/-- Render a story for the current_story template variable
(src/installer/step-ops.ts formatStoryForTemplate). -/
def formatStoryForTemplate (story : StoryRow) : String :=
  let ac := String.intercalate "\n"
    ((story.acceptanceCriteria.enum).map
      (fun p => "  " ++ toString (p.1 + 1) ++ ". " ++ jsStr p.2))
  "Story " ++ jsStr story.storyId ++ ": " ++ jsStr story.title ++ "\n\n" ++
    jsStr story.description ++ "\n\nAcceptance Criteria:\n" ++ ac

/-- Render the completed_stories template variable
(src/installer/step-ops.ts formatCompletedStories). -/
def formatCompletedStories (stories : List StoryRow) : String :=
  let done := stories.filter (fun s => s.status == .done)
  if done.isEmpty then "(none yet)"
  else String.intercalate "\n"
    (done.map (fun s => "- " ++ jsStr s.storyId ++ ": " ++ jsStr s.title))

/-- Single-step tail of claimStep: the conditional pending-to-running update,
progress injection for runs with stories, and template resolution. -/
def claimSingleStep (env : ClaimEnv) (db : Db) (step : StepRow)
    (context : List (String × String)) (now : Nat) : Db × ClaimResult :=
  let db := updateSteps db (fun s => s.id == step.id && s.status == .pending)
    (fun s => { s with status := .running, updatedAt := now })
  let hasStories := (db.stories.filter (fun s => s.runId == step.runId)).length
  let context :=
    if hasStories > 0 then ctxSet context "progress" env.progress else context
  let resolvedInput := resolveTemplate step.inputTemplate context
  (db, { found := true, stepId := some step.id, runId := some step.runId,
         resolvedInput := some resolvedInput })

/-- Loop-over-stories branch of claimStep: pick the next pending story, fail
the loop when only failed stories remain, mark the loop done and advance when
none remain, otherwise claim the story, materialise story-scoped context and
persist it to the run. -/
def claimLoopStories (env : ClaimEnv) (db : Db) (step : StepRow)
    (context : List (String × String)) (now : Nat) : Db × ClaimResult :=
  let nextStory := minBy
    (db.stories.filter (fun s => s.runId == step.runId && s.status == .pending))
    (fun s => s.storyIndex)
  match nextStory with
  | none =>
    let failedStory := db.stories.find?
      (fun s => s.runId == step.runId && s.status == .failed)
    if failedStory.isSome then
      let db := updateSteps db (fun s => s.id == step.id)
        (fun s => { s with
          status := .failed
          output := some "Loop cannot continue because one or more stories failed"
          updatedAt := now })
      let db := updateRuns db (fun r => r.id == step.runId)
        (fun r => { r with status := .failed, updatedAt := now })
      (db, { found := false })
    else
      let db := updateSteps db (fun s => s.id == step.id)
        (fun s => { s with status := .done, updatedAt := now })
      ((advancePipeline db step.runId now).1, { found := false })
  | some story =>
    let db := updateStories db (fun s => s.id == story.id)
      (fun s => { s with status := .running, updatedAt := now })
    let db := updateSteps db (fun s => s.id == step.id)
      (fun s => { s with
        status := .running
        currentStoryId := some story.id
        updatedAt := now })
    let allStories := getStories db step.runId
    let pendingCount := (allStories.filter
      (fun s => s.status == .pending || s.status == .running)).length
    let context := ctxSet context "current_story" (formatStoryForTemplate story)
    let context := ctxSet context "current_story_id" (jsStr story.storyId)
    let context := ctxSet context "current_story_title" (jsStr story.title)
    let context := ctxSet context "completed_stories" (formatCompletedStories allStories)
    let context := ctxSet context "stories_remaining" (toString pendingCount)
    let context := ctxSet context "progress" env.progress
    let context :=
      if !(strTruthy (ctxGet context "verify_feedback")) then
        ctxSet context "verify_feedback" ""
      else context
    let db := updateRuns db (fun r => r.id == step.runId)
      (fun r => { r with context := context, updatedAt := now })
    let resolvedInput := resolveTemplate step.inputTemplate context
    (db, { found := true, stepId := some step.id, runId := some step.runId,
           resolvedInput := some resolvedInput })

/-- Find and claim a pending step for an agent
(src/installer/step-ops.ts claimStep): optional throttled cleanup, select a
pending step of a non-failed non-cancelled run, guard against failed runs,
build the template context, then the loop-story or single-step branch. -/
def claimStep (env : ClaimEnv) (db : Db) (agentId : String) (now : Nat) :
    Db × ClaimResult :=
  let db := if env.runCleanup then cleanupAbandonedSteps db now env.thresholdMs else db
  let stepQ := db.steps.find? (fun s => s.agentId == agentId &&
    s.status == .pending &&
    (match findRun db s.runId with
     | some r => !(r.status == .failed) && !(r.status == .cancelled)
     | none => false))
  match stepQ with
  | none => (db, { found := false })
  | some step =>
    if (findRun db step.runId).map (fun r => r.status) == some .failed then
      (db, { found := false })
    else
      let context :=
        match findRun db step.runId with
        | some r => r.context
        | none => []
      let context := ctxSet context "run_id" step.runId
      let context :=
        if strTruthy (ctxGet context "repo") && strTruthy (ctxGet context "branch") then
          ctxSet context "has_frontend_changes" env.hasFrontend
        else
          ctxSet context "has_frontend_changes" "false"
      if step.stepType == "loop" then
        match step.loopConfig with
        | some lc =>
          if lc.over == "stories" then claimLoopStories env db step context now
          else claimSingleStep env db step context now
        | none => claimSingleStep env db step context now
      else claimSingleStep env db step context now

/-- Database transaction of the spawn-success path of spawnForClaimed
(src/daemon/spawner.ts): transition the claimed step or story to running and
insert the daemon_active_sessions row. -/
def spawnSuccessTx (db : Db) (stepId : String) (storyId : Option String)
    (agentId runId sessionId source : String) (now : Nat) : Db :=
  let db :=
    match storyId with
    | some sid =>
      updateStories db (fun s => s.id == sid)
        (fun s => { s with status := .running, updatedAt := now })
    | none =>
      updateSteps db (fun s => s.id == stepId)
        (fun s => { s with status := .running, updatedAt := now })
  { db with sessions := db.sessions ++
      [{ agentId := agentId, stepId := stepId, runId := runId, storyId := storyId,
         spawnedBy := source, sessionId := sessionId, spawnedAt := now }] }

/-- Database transaction of the spawn-failure rollback of spawnForClaimed
(src/daemon/spawner.ts catch branch): revert rows conditioned on the claiming
status back to pending; no session row is written and no event is emitted. -/
def spawnRollbackTx (db : Db) (stepId : String) (storyId : Option String)
    (now : Nat) : Db :=
  match storyId with
  | some sid =>
    let db := updateStories db (fun s => s.id == sid && s.status == .claiming)
      (fun s => { s with status := .pending, updatedAt := now })
    updateSteps db (fun s => s.id == stepId && s.currentStoryId == some sid)
      (fun s => { s with currentStoryId := none })
  | none =>
    updateSteps db (fun s => s.id == stepId && s.status == .claiming)
      (fun s => { s with status := .pending, updatedAt := now })

/-! ## Concrete fixtures -/

/-- Fixture run of workflow wf with a one-entry context. -/
def mkRun (st : RunStatus) : RunRow :=
  { id := "r1", workflowId := "wf", status := st,
    context := [("task", "hello")], updatedAt := 0 }

/-- Fixture single step of run r1 owned by agent a1. -/
def mkStep (i : String) (idx : Nat) (st : StepStatus) : StepRow :=
  { id := i, runId := "r1", stepId := "name-" ++ i, agentId := "a1",
    stepIndex := idx, inputTemplate := "Echo: {{task}}", stepType := "single",
    loopConfig := none, status := st, output := none, retryCount := 0,
    maxRetries := 2, abandonedCount := 0, currentStoryId := none, updatedAt := 0 }

/-- Claim environment with the cleanup throttle not yet elapsed. -/
def exEnv : ClaimEnv :=
  { runCleanup := false, thresholdMs := 0, progress := "", hasFrontend := "false" }

/-- Database with a cancelled run whose only step is running. -/
def dbCancelled : Db :=
  { runs := [mkRun .cancelled], steps := [mkStep "s0" 0 .running],
    stories := [], sessions := [] }

/-- Database with a running run, a pending step 0 and a waiting step 1. -/
def dbTwoSteps : Db :=
  { runs := [mkRun .running],
    steps := [mkStep "s0" 0 .pending, mkStep "s1" 1 .waiting],
    stories := [], sessions := [] }

/-- Database with a running run and two waiting steps. -/
def dbTwoWaiting : Db :=
  { runs := [mkRun .running],
    steps := [mkStep "s0" 0 .waiting, mkStep "s1" 1 .waiting],
    stories := [], sessions := [] }

/-- Database with a running run and one pending step. -/
def dbPend : Db :=
  { runs := [mkRun .running], steps := [mkStep "s0" 0 .pending],
    stories := [], sessions := [] }

/-- Database with a running run and one running step. -/
def dbRunningStep : Db :=
  { runs := [mkRun .running], steps := [mkStep "s0" 0 .running],
    stories := [], sessions := [] }

/-- A valid STORIES_JSON entry with id s(i). -/
def storyEntry (i : Nat) : String :=
  "\x7b\"id\":\"s" ++ toString i ++
    "\",\"title\":\"t\",\"description\":\"d\",\"acceptanceCriteria\":[\"a\"]\x7d"

/-- A STORIES_JSON array of n valid entries with distinct ids. -/
def storiesJson (n : Nat) : String :=
  "[" ++ String.intercalate "," ((List.range n).map storyEntry) ++ "]"

/-- Entry with an empty acceptance-criteria array. -/
def storyEmptyAc : String :=
  "\x7b\"id\":\"x\",\"title\":\"t\",\"description\":\"d\",\"acceptanceCriteria\":[]\x7d"

/-- Entry missing the id member. -/
def storyNoId : String :=
  "\x7b\"title\":\"t\",\"description\":\"d\",\"acceptanceCriteria\":[\"a\"]\x7d"

/-- Entry missing the title member. -/
def storyNoTitle : String :=
  "\x7b\"id\":\"x\",\"description\":\"d\",\"acceptanceCriteria\":[\"a\"]\x7d"

/-- Entry missing the description member. -/
def storyNoDesc : String :=
  "\x7b\"id\":\"x\",\"title\":\"t\",\"acceptanceCriteria\":[\"a\"]\x7d"

/-- Step output carrying a KEY line and a duplicate-id STORIES_JSON payload. -/
def outDup : String :=
  "STATUS: done\nSTORIES_JSON: [" ++ storyEntry 1 ++ "," ++ storyEntry 1 ++ "]"

/-- Database with a failed run whose only step is running. -/
def dbFailed : Db :=
  { runs := [mkRun .failed], steps := [mkStep "s0" 0 .running],
    stories := [], sessions := [] }

set_option maxRecDepth 200000

/-! ## Helper lemmas about the row combinators -/

theorem updateSteps_runs (db : Db) (p : StepRow → Bool) (f : StepRow → StepRow) :
    (updateSteps db p f).runs = db.runs := rfl

theorem updateSteps_stories (db : Db) (p : StepRow → Bool) (f : StepRow → StepRow) :
    (updateSteps db p f).stories = db.stories := rfl

theorem updateRuns_steps (db : Db) (p : RunRow → Bool) (f : RunRow → RunRow) :
    (updateRuns db p f).steps = db.steps := rfl

theorem updateRuns_stories (db : Db) (p : RunRow → Bool) (f : RunRow → RunRow) :
    (updateRuns db p f).stories = db.stories := rfl

theorem updateStories_steps (db : Db) (p : StoryRow → Bool) (f : StoryRow → StoryRow) :
    (updateStories db p f).steps = db.steps := rfl

theorem updateStories_runs (db : Db) (p : StoryRow → Bool) (f : StoryRow → StoryRow) :
    (updateStories db p f).runs = db.runs := rfl

/-- find? over a mapped list when the map preserves the predicate. -/
theorem find?_map_pred_inv {α : Type} (l : List α) (p : α → Bool) (g : α → α)
    (h : ∀ a, p (g a) = p a) :
    (l.map g).find? p = (l.find? p).map g := by
  induction l with
  | nil => rfl
  | cons a as ih =>
    simp only [List.map_cons, List.find?_cons]
    rw [h a]
    cases hpa : p a
    · simpa using ih
    · rfl

/-- find? over a conditional rewrite keyed by the same predicate. -/
theorem find?_mapIte {α : Type} (l : List α) (p : α → Bool) (f : α → α)
    (hpf : ∀ a, p (f a) = p a) :
    (l.map (fun a => if p a then f a else a)).find? p = (l.find? p).map f := by
  induction l with
  | nil => rfl
  | cons a as ih =>
    simp only [List.map_cons, List.find?_cons]
    cases hpa : p a
    · simp only [hpa, if_neg, Bool.false_eq_true, ite_false, hpa]
      simpa using ih
    · simp only [hpa, ite_true, hpf a, hpa]
      rfl

/-- A foldl whose step keeps the accumulator or switches to the current
element produces the initial accumulator or an element of the list. -/
theorem foldl_pick_mem {α : Type} (pick : Option α → α → Option α)
    (hp : ∀ acc a, pick acc a = acc ∨ pick acc a = some a) :
    ∀ (l : List α) (acc : Option α) (x : α),
      l.foldl pick acc = some x → acc = some x ∨ x ∈ l := by
  intro l
  induction l with
  | nil => intro acc x h; exact Or.inl h
  | cons a as ih =>
    intro acc x h
    rcases ih (pick acc a) x h with h2 | h2
    · rcases hp acc a with h3 | h3
      · exact Or.inl (h3 ▸ h2)
      · rw [h3] at h2
        right
        rw [Option.some_inj] at h2
        exact h2 ▸ List.mem_cons_self a as
    · right; exact List.mem_cons_of_mem _ h2

/-- The minBy selection returns a member of the list. -/
theorem minBy_mem {α : Type} {l : List α} {idx : α → Nat} {x : α}
    (h : minBy l idx = some x) : x ∈ l := by
  unfold minBy at h
  have hp : ∀ (acc : Option α) (a : α),
      (match acc with
        | none => some a
        | some b => if idx a < idx b then some a else acc) = acc ∨
      (match acc with
        | none => some a
        | some b => if idx a < idx b then some a else acc) = some a := by
    intro acc a
    cases acc with
    | none => exact Or.inr rfl
    | some b =>
      by_cases hlt : idx a < idx b
      · exact Or.inr (by simp [hlt])
      · exact Or.inl (by simp [hlt])
  rcases foldl_pick_mem _ hp l none x h with h2 | h2
  · cases h2
  · exact h2

/-- The maxByUpdated selection returns a member of the list. -/
theorem maxByUpdated_mem {l : List StoryRow} {x : StoryRow}
    (h : maxByUpdated l = some x) : x ∈ l := by
  unfold maxByUpdated at h
  have hp : ∀ (acc : Option StoryRow) (a : StoryRow),
      (match acc with
        | none => some a
        | some b => if a.updatedAt > b.updatedAt then some a else acc) = acc ∨
      (match acc with
        | none => some a
        | some b => if a.updatedAt > b.updatedAt then some a else acc) = some a := by
    intro acc a
    cases acc with
    | none => exact Or.inr rfl
    | some b =>
      by_cases hlt : a.updatedAt > b.updatedAt
      · exact Or.inr (by simp [hlt])
      · exact Or.inl (by simp [hlt])
  rcases foldl_pick_mem _ hp l none x h with h2 | h2
  · cases h2
  · exact h2

/-- A list of length at most one with a member is that singleton. -/
theorem eq_singleton_of_length_le_one {α : Type} {l : List α} {x : α}
    (h1 : l.length ≤ 1) (h2 : x ∈ l) : l = [x] := by
  match l, h2 with
  | [a], h2 =>
    rw [List.mem_singleton] at h2
    rw [h2]
  | a :: b :: t, _ => simp at h1

/-- Setting a key makes it readable. -/
theorem find?_ctxSet (c : List (String × String)) (k v : String) :
    (ctxSet c k v).find? (fun p => p.1 == k) = some (k, v) := by
  unfold ctxSet
  by_cases h : c.any (fun p => p.1 == k) = true
  · rw [if_pos h]
    induction c with
    | nil => simp at h
    | cons a as ih =>
      simp only [List.map_cons, List.find?_cons]
      by_cases ha : a.1 == k
      · simp [ha]
      · simp only [ha, Bool.false_eq_true, ite_false]
        have has : as.any (fun p => p.1 == k) = true := by
          rw [List.any_cons] at h
          rcases Bool.or_eq_true_iff.mp h with h2 | h2
          · exact absurd h2 ha
          · exact h2
        exact ih has
  · rw [if_neg h]
    rw [List.find?_append]
    have hnone : c.find? (fun p => p.1 == k) = none := by
      rw [List.find?_eq_none]
      intro p hp hpk
      exact h (List.any_eq_true.mpr ⟨p, hp, hpk⟩)
    simp [hnone]

/-- ctxGet of a freshly set key. -/
theorem ctxGet_ctxSet_self (c : List (String × String)) (k v : String) :
    ctxGet (ctxSet c k v) k = some v := by
  unfold ctxGet
  rw [find?_ctxSet]
  rfl

/-- A conditional rewrite keyed by a predicate it preserves is idempotent. -/
theorem mapIte_idem {α : Type} (l : List α) (p : α → Bool) (f : α → α)
    (h1 : ∀ a, p (f a) = p a) (h2 : ∀ a, f (f a) = f a) :
    ((l.map (fun a => if p a then f a else a)).map
        (fun a => if p a then f a else a)) =
      l.map (fun a => if p a then f a else a) := by
  induction l with
  | nil => rfl
  | cons a as ih =>
    simp only [List.map_cons]
    rw [ih]
    by_cases hpa : p a = true
    · rw [if_pos hpa, if_pos (by rw [h1]; exact hpa)]
      rw [h2]
    · rw [if_neg hpa, if_neg hpa]

/-- find? by key after a conditional rewrite keyed on a possibly different
key, when the rewrite preserves keys. -/
theorem find?_key_map_update {α : Type} (l : List α) (key : α → String)
    (i j : String) (f : α → α) (hf : ∀ a, key (f a) = key a) :
    (l.map (fun a => if key a == j then f a else a)).find?
        (fun a => key a == i) =
      (l.find? (fun a => key a == i)).map
        (fun a => if key a == j then f a else a) :=
  find?_map_pred_inv l _ _ (fun a => by
    by_cases h : (key a == j) = true
    · rw [if_pos h, hf]
    · rw [if_neg h])

/-- findStep after a steps update keyed on the same id. -/
theorem findStep_updateSteps_self (db : Db) (i : String) (f : StepRow → StepRow)
    (hf : ∀ s, (f s).id = s.id) :
    findStep (updateSteps db (fun s => s.id == i) f) i =
      (findStep db i).map f := by
  unfold findStep updateSteps
  exact find?_mapIte db.steps _ f (fun a => by
    show ((f a).id == i) = (a.id == i)
    rw [hf])

/-- findStep after a steps update keyed on another id. -/
theorem findStep_updateSteps_other (db : Db) (i j : String)
    (f : StepRow → StepRow) (hf : ∀ s, (f s).id = s.id) :
    findStep (updateSteps db (fun s => s.id == j) f) i =
      (findStep db i).map (fun s => if s.id == j then f s else s) := by
  unfold findStep updateSteps
  exact find?_key_map_update db.steps (fun s => s.id) i j f hf

/-- findStory after a stories update keyed on the same id. -/
theorem findStory_updateStories_self (db : Db) (i : String)
    (f : StoryRow → StoryRow) (hf : ∀ s, (f s).id = s.id) :
    findStory (updateStories db (fun s => s.id == i) f) i =
      (findStory db i).map f := by
  unfold findStory updateStories
  exact find?_mapIte db.stories _ f (fun a => by
    show ((f a).id == i) = (a.id == i)
    rw [hf])

/-- findRun after a runs update keyed on the same id. -/
theorem findRun_updateRuns_self (db : Db) (i : String) (f : RunRow → RunRow)
    (hf : ∀ r, (f r).id = r.id) :
    findRun (updateRuns db (fun r => r.id == i) f) i =
      (findRun db i).map f := by
  unfold findRun updateRuns
  exact find?_mapIte db.runs _ f (fun a => by
    show ((f a).id == i) = (a.id == i)
    rw [hf])

/-! ## Claim theorems -/

/-- C1, counterexample: the terminal-run guard is not total.  On a cancelled
run with its only step running, completeStep still marks the step done and
merges the output keys into the run context, and failStep still resets the
step to pending; state is not left unchanged as the claim requires. -/
theorem terminalGuard_cex :
    (findRun dbCancelled "r1").map (fun r => r.status) = some .cancelled ∧
    (findStep dbCancelled "s0").map (fun s => s.status) = some .running ∧
    (findStep (completeStep dbCancelled "s0" "STATUS: done" 7).1 "s0").map
      (fun s => s.status) = some .done ∧
    (findRun (completeStep dbCancelled "s0" "STATUS: done" 7).1 "r1").map
      (fun r => ctxGet r.context "status") = some (some "done") ∧
    (findStep (failStep dbCancelled "s0" "boom" 7).1 "s0").map
      (fun s => s.status) = some .pending := by decide

/-- C1, amended: the guards that do exist.  completeStep is a silent no-op
returning advanced = false and run_completed = false exactly when the owning
run is failed, and advancePipeline is a silent no-op when the run is failed or
cancelled; completed runs are not guarded by either, and failStep has no
terminal-run guard at all. -/
theorem terminalGuard_amended :
    (∀ (db : Db) (stepId output : String) (now : Nat) (step : StepRow),
      findStep db stepId = some step →
      (findRun db step.runId).map (fun r => r.status) = some .failed →
      completeStep db stepId output now = (db, .ok ⟨false, false⟩)) ∧
    (∀ (db : Db) (runId : String) (now : Nat),
      ((findRun db runId).map (fun r => r.status) = some .failed ∨
        (findRun db runId).map (fun r => r.status) = some .cancelled) →
      advancePipeline db runId now = (db, ⟨false, false⟩)) := by
  constructor
  · intro db stepId output now step hs hr
    unfold completeStep
    rw [hs]
    simp [hr]
  · intro db runId now h
    unfold advancePipeline
    rcases h with h | h <;> simp [h]

/-- C1, witness for the amended theorem at a failed run. -/
theorem terminalGuard_amended_witness :
    completeStep dbFailed "s0" "STATUS: done" 7 = (dbFailed, .ok ⟨false, false⟩) ∧
    advancePipeline dbFailed "r1" 7 = (dbFailed, ⟨false, false⟩) :=
  ⟨terminalGuard_amended.1 dbFailed "s0" "STATUS: done" 7 (mkStep "s0" 0 .running)
      (by decide) (by decide),
    terminalGuard_amended.2 dbFailed "r1" 7 (Or.inl (by decide))⟩

/-- C2, counterexample: advancePipeline does not stop at an earlier incomplete
step.  With step s0 pending at index 0 and step s1 waiting at index 1, the
claim requires doing nothing, but the operation promotes s1 to pending and
reports advanced = true. -/
theorem advanceBlocked_cex :
    (findStep dbTwoSteps "s0").map (fun s => (s.stepIndex, s.status)) =
      some (0, .pending) ∧
    (findStep dbTwoSteps "s1").map (fun s => (s.stepIndex, s.status)) =
      some (1, .waiting) ∧
    (advancePipeline dbTwoSteps "r1" 5).2 = ⟨true, false⟩ ∧
    (findStep (advancePipeline dbTwoSteps "r1" 5).1 "s1").map
      (fun s => s.status) = some .pending := by decide

/-- C2, amended: on a non-failed non-cancelled run, advancePipeline promotes
the lowest-indexed waiting step to pending unconditionally — even when an
incomplete (pending, running or failed) step exists at a lower index.  The
incomplete-step check only suppresses the run-completion branch when no
waiting step exists. -/
theorem advancePromotes_amended (db : Db) (runId : String) (now : Nat)
    (r : RunRow) (w i : StepRow)
    (hr : findRun db runId = some r)
    (hrf : r.status ≠ .failed) (hrc : r.status ≠ .cancelled)
    (hw : minWaitingStep db runId = some w)
    (hi : i ∈ db.steps) (hiRun : i.runId = runId)
    (hiInc : isIncompleteStatus i.status = true)
    (hiBefore : i.stepIndex < w.stepIndex) :
    advancePipeline db runId now =
      (updateSteps db (fun s => s.id == w.id)
        (fun s => { s with status := .pending, updatedAt := now }),
       ⟨true, false⟩) := by
  have hg : ((some r.status == some RunStatus.failed) ||
      (some r.status == some RunStatus.cancelled)) = false := by
    cases hst : r.status
    · decide
    · decide
    · exact absurd hst hrf
    · exact absurd hst hrc
  rcases hfi : findIncompleteStep db runId with _ | j <;>
    · unfold advancePipeline
      rw [hr, hw, hfi]
      simp [hg]
      exact ⟨hrf, hrc⟩

/-- C2, witness for the amended theorem at the two-step fixture. -/
theorem advancePromotes_amended_witness :
    advancePipeline dbTwoSteps "r1" 5 =
      (updateSteps dbTwoSteps (fun s => s.id == (mkStep "s1" 1 .waiting).id)
        (fun s => { s with status := .pending, updatedAt := 5 }),
       ⟨true, false⟩) :=
  advancePromotes_amended dbTwoSteps "r1" 5 (mkRun .running)
    (mkStep "s1" 1 .waiting) (mkStep "s0" 0 .pending)
    (by decide) (by decide) (by decide) (by decide)
    (by decide) (by decide) (by decide) (by decide)

/-- C3 (code_bug): on a pending single step the claim operation succeeds and
returns a resolved input, but it moves the row straight from pending to
running; the claiming state asserted by the spec and by the repository test
suite (tests/claiming-status.test.ts) is never entered. -/
theorem claimStep_sets_running :
    (claimStep exEnv dbPend "a1" 3).2.found = true ∧
    (claimStep exEnv dbPend "a1" 3).2.resolvedInput = some "Echo: hello" ∧
    (findStep dbPend "s0").map (fun s => s.status) = some .pending ∧
    (findStep (claimStep exEnv dbPend "a1" 3).1 "s0").map (fun s => s.status) =
      some .running := by decide

/-- C4 (code_bug): after claimStep the step is running, so the spawner's
rollback transaction — whose update is conditioned on the claiming status —
matches nothing: the step stays running instead of returning to pending.
retry_count is indeed unchanged and no ActiveSession row is inserted, but the
round trip does not restore the pre-claim state. -/
theorem spawnRollback_keeps_running :
    (findStep dbPend "s0").map (fun s => s.status) = some .pending ∧
    (claimStep exEnv dbPend "a1" 3).2.stepId = some "s0" ∧
    (findStep (spawnRollbackTx (claimStep exEnv dbPend "a1" 3).1 "s0" none 4)
      "s0").map (fun s => (s.status, s.retryCount)) = some (.running, 0) ∧
    (spawnRollbackTx (claimStep exEnv dbPend "a1" 3).1 "s0" none 4).sessions =
      [] := by decide

/-- C5, counterexample: with two waiting steps, one advancePipeline yields
statuses pending and waiting, but a second invocation promotes the second
waiting step as well, so twice is not equivalent to once. -/
theorem advanceTwice_cex :
    ((advancePipeline (advancePipeline dbTwoWaiting "r1" 5).1 "r1" 5).1.steps.map
      (fun s => s.status)) = [.pending, .pending] ∧
    ((advancePipeline dbTwoWaiting "r1" 5).1.steps.map (fun s => s.status)) =
      [.pending, .waiting] := by decide

/-- C10: completeStep and failStep throw a Step-not-found error for an unknown
step id and leave the database unchanged. -/
theorem stepNotFound_theorem (db : Db) (stepId output errorMsg : String)
    (now : Nat) (h : findStep db stepId = none) :
    completeStep db stepId output now =
      (db, .error ("Step not found: " ++ stepId)) ∧
    failStep db stepId errorMsg now =
      (db, .error ("Step not found: " ++ stepId)) := by
  constructor
  · unfold completeStep
    rw [h]
  · unfold failStep
    rw [h]

/-- The empty database. -/
def dbEmpty : Db := { runs := [], steps := [], stories := [], sessions := [] }

/-- C10, witness at the empty database. -/
theorem stepNotFound_witness :
    completeStep dbEmpty "nope" "STATUS: done" 1 =
      (dbEmpty, .error ("Step not found: " ++ "nope")) ∧
    failStep dbEmpty "nope" "boom" 1 =
      (dbEmpty, .error ("Step not found: " ++ "nope")) :=
  stepNotFound_theorem dbEmpty "nope" "STATUS: done" "boom" 1 (by decide)

/-- C6, counterexample: a duplicate-id STORIES_JSON payload makes completeStep
throw, and the step does remain running, but the call is not free of state
changes: the STATUS key has already been merged into the run context and the
first story of the payload has already been inserted. -/
theorem storiesValidation_cex :
    (completeStep dbRunningStep "s0" outDup 7).2 =
      .error "STORIES_JSON has duplicate story id \"s1\"" ∧
    (findStep (completeStep dbRunningStep "s0" outDup 7).1 "s0").map
      (fun s => s.status) = some .running ∧
    (findRun dbRunningStep "r1").map (fun r => ctxGet r.context "status") =
      some none ∧
    (findRun (completeStep dbRunningStep "s0" outDup 7).1 "r1").map
      (fun r => ctxGet r.context "status") = some (some "done") ∧
    dbRunningStep.stories.length = 0 ∧
    (completeStep dbRunningStep "s0" outDup 7).1.stories.length = 1 := by decide

/-- C7: boundary and validation behaviour of the STORIES_JSON ingestion
through completeStep: a 21-entry payload is rejected while 20 valid entries
are accepted and inserted, and payloads with a duplicate story id, an empty
acceptance-criteria array, or a missing id, title or description are all
rejected. -/
theorem storiesBoundary_theorem :
    (completeStep dbRunningStep "s0" ("STORIES_JSON: " ++ storiesJson 21) 7).2 =
      .error "STORIES_JSON has 21 stories, max is 20" ∧
    (completeStep dbRunningStep "s0" ("STORIES_JSON: " ++ storiesJson 20) 7).2 =
      .ok ⟨false, true⟩ ∧
    (completeStep dbRunningStep "s0"
      ("STORIES_JSON: " ++ storiesJson 20) 7).1.stories.length = 20 ∧
    (completeStep dbRunningStep "s0" outDup 7).2 =
      .error "STORIES_JSON has duplicate story id \"s1\"" ∧
    (completeStep dbRunningStep "s0"
      ("STORIES_JSON: [" ++ storyEmptyAc ++ "]") 7).2 =
      .error "STORIES_JSON story at index 0 missing required fields (id, title, description, acceptanceCriteria)" ∧
    (completeStep dbRunningStep "s0" ("STORIES_JSON: [" ++ storyNoId ++ "]") 7).2 =
      .error "STORIES_JSON story at index 0 missing required fields (id, title, description, acceptanceCriteria)" ∧
    (completeStep dbRunningStep "s0" ("STORIES_JSON: [" ++ storyNoTitle ++ "]") 7).2 =
      .error "STORIES_JSON story at index 0 missing required fields (id, title, description, acceptanceCriteria)" ∧
    (completeStep dbRunningStep "s0" ("STORIES_JSON: [" ++ storyNoDesc ++ "]") 7).2 =
      .error "STORIES_JSON story at index 0 missing required fields (id, title, description, acceptanceCriteria)" := by
  exact ⟨by decide, by decide, by decide, by decide, by decide, by decide,
    by decide, by decide⟩

/-- C5, amended: running advancePipeline twice in a row leaves the same state
as running it once, provided the run has at most one waiting step.  With two
or more waiting steps the second invocation promotes another waiting step
(see the counterexample). -/
theorem advanceIdempotent_amended (db : Db) (runId : String) (now : Nat)
    (hcount : (db.steps.filter
      (fun s => s.runId == runId && s.status == .waiting)).length ≤ 1) :
    (advancePipeline (advancePipeline db runId now).1 runId now).1 =
      (advancePipeline db runId now).1 := by
  by_cases hg : (((findRun db runId).map (fun r => r.status) ==
      some RunStatus.failed) ||
      ((findRun db runId).map (fun r => r.status) ==
        some RunStatus.cancelled)) = true
  · have h1 : advancePipeline db runId now = (db, ⟨false, false⟩) := by
      unfold advancePipeline
      simp [hg]
    simp [h1]
  · rw [Bool.not_eq_true] at hg
    rcases hmw : minWaitingStep db runId with _ | w
    · rcases hfi : findIncompleteStep db runId with _ | j
      · have h1 : advancePipeline db runId now =
            (updateRuns db (fun r => r.id == runId)
              (fun r => { r with status := .completed, updatedAt := now }),
             ⟨false, true⟩) := by
          unfold advancePipeline
          rw [hmw, hfi]
          simp [hg]
        rw [h1]
        have hfr1 : findRun (updateRuns db (fun r => r.id == runId)
            (fun r => { r with status := .completed, updatedAt := now })) runId =
            (findRun db runId).map
              (fun r => { r with status := RunStatus.completed, updatedAt := now }) :=
          find?_mapIte db.runs _ _ (fun a => rfl)
        have hg2 : (((findRun (updateRuns db (fun r => r.id == runId)
            (fun r => { r with status := .completed, updatedAt := now })) runId).map
              (fun r => r.status) == some RunStatus.failed) ||
            ((findRun (updateRuns db (fun r => r.id == runId)
              (fun r => { r with status := .completed, updatedAt := now })) runId).map
                (fun r => r.status) == some RunStatus.cancelled)) = false := by
          rw [hfr1]
          cases hfr : findRun db runId with
          | none => rfl
          | some r => rfl
        have h2 : advancePipeline (updateRuns db (fun r => r.id == runId)
            (fun r => { r with status := .completed, updatedAt := now })) runId now =
            (updateRuns (updateRuns db (fun r => r.id == runId)
              (fun r => { r with status := .completed, updatedAt := now }))
              (fun r => r.id == runId)
              (fun r => { r with status := .completed, updatedAt := now }),
             ⟨false, true⟩) := by
          have hmw2 : minWaitingStep (updateRuns db (fun r => r.id == runId)
              (fun r => { r with status := .completed, updatedAt := now })) runId =
              none := hmw
          have hfi2 : findIncompleteStep (updateRuns db (fun r => r.id == runId)
              (fun r => { r with status := .completed, updatedAt := now })) runId =
              none := hfi
          unfold advancePipeline
          rw [hmw2, hfi2]
          simp [hg2]
        rw [h2]
        show updateRuns _ _ _ = _
        unfold updateRuns
        congr 1
        exact mapIte_idem db.runs _ _ (fun a => rfl) (fun a => rfl)
      · have h1 : advancePipeline db runId now = (db, ⟨false, false⟩) := by
          unfold advancePipeline
          rw [hmw, hfi]
          simp [hg]
        simp [h1]
    · have h1 : advancePipeline db runId now =
          (updateSteps db (fun s => s.id == w.id)
            (fun s => { s with status := .pending, updatedAt := now }),
           ⟨true, false⟩) := by
        rcases hfi : findIncompleteStep db runId with _ | j <;>
          · unfold advancePipeline
            rw [hmw, hfi]
            simp [hg]
      rw [h1]
      have hwmem : w ∈ db.steps.filter
          (fun s => s.runId == runId && s.status == .waiting) :=
        minBy_mem hmw
      have hsing : db.steps.filter
          (fun s => s.runId == runId && s.status == .waiting) = [w] :=
        eq_singleton_of_length_le_one hcount hwmem
      have hwpred : (w.runId == runId && w.status == StepStatus.waiting) = true :=
        (List.mem_filter.mp hwmem).2
      have hwrun : (w.runId == runId) = true := by
        rcases Bool.and_eq_true_iff.mp hwpred with ⟨h3, _⟩
        exact h3
      have hfilter2 : (updateSteps db (fun s => s.id == w.id)
          (fun s => { s with status := .pending, updatedAt := now })).steps.filter
            (fun s => s.runId == runId && s.status == .waiting) = [] := by
        rw [List.filter_eq_nil_iff]
        intro y hy
        rcases List.mem_map.mp hy with ⟨x, hx, rfl⟩
        by_cases hxid : (x.id == w.id) = true
        · rw [if_pos hxid]
          simp
        · rw [if_neg hxid]
          intro hxpred
          have hxmem : x ∈ db.steps.filter
              (fun s => s.runId == runId && s.status == .waiting) :=
            List.mem_filter.mpr ⟨hx, hxpred⟩
          rw [hsing, List.mem_singleton] at hxmem
          rw [hxmem] at hxid
          exact hxid (beq_self_eq_true w.id)
      have hmw2 : minWaitingStep (updateSteps db (fun s => s.id == w.id)
          (fun s => { s with status := .pending, updatedAt := now })) runId = none := by
        unfold minWaitingStep
        rw [hfilter2]
        rfl
      have hwin2 : (updateSteps db (fun s => s.id == w.id)
          (fun s => { s with status := .pending, updatedAt := now })).steps.find?
            (fun s => s.runId == runId && isIncompleteStatus s.status) ≠ none := by
        intro hnone
        rw [List.find?_eq_none] at hnone
        have hwmem0 : w ∈ db.steps := List.mem_of_mem_filter hwmem
        have himg : (fun x => if x.id == w.id
            then { x with status := StepStatus.pending, updatedAt := now } else x) w ∈
            (updateSteps db (fun s => s.id == w.id)
              (fun s => { s with status := .pending, updatedAt := now })).steps :=
          List.mem_map_of_mem _ hwmem0
        simp only [beq_self_eq_true, if_true] at himg
        have := hnone _ himg
        apply this
        rw [Bool.and_eq_true_iff]
        exact ⟨hwrun, rfl⟩
      rcases hfi2 : (updateSteps db (fun s => s.id == w.id)
          (fun s => { s with status := .pending, updatedAt := now })).steps.find?
            (fun s => s.runId == runId && isIncompleteStatus s.status) with _ | j2
      · exact absurd hfi2 hwin2
      · have h2 : advancePipeline (updateSteps db (fun s => s.id == w.id)
            (fun s => { s with status := .pending, updatedAt := now })) runId now =
            (updateSteps db (fun s => s.id == w.id)
              (fun s => { s with status := .pending, updatedAt := now }),
             ⟨false, false⟩) := by
          have hg2 : (((findRun (updateSteps db (fun s => s.id == w.id)
              (fun s => { s with status := .pending, updatedAt := now })) runId).map
                (fun r => r.status) == some RunStatus.failed) ||
              ((findRun (updateSteps db (fun s => s.id == w.id)
                (fun s => { s with status := .pending, updatedAt := now })) runId).map
                  (fun r => r.status) == some RunStatus.cancelled)) = false := hg
          have hfi2b : findIncompleteStep (updateSteps db (fun s => s.id == w.id)
              (fun s => { s with status := .pending, updatedAt := now })) runId =
              some j2 := hfi2
          unfold advancePipeline
          rw [hmw2, hfi2b]
          simp [hg2]
        rw [h2]

/-- C5, witness for the amended theorem at a run with one waiting step. -/
theorem advanceIdempotent_amended_witness :
    (advancePipeline (advancePipeline dbTwoSteps "r1" 5).1 "r1" 5).1 =
      (advancePipeline dbTwoSteps "r1" 5).1 :=
  advanceIdempotent_amended dbTwoSteps "r1" 5 (by decide)

/-- A list extension laundered through an intermediate list. -/
theorem append_chain {α : Type} {a b c : List α} {u v : List α}
    (h1 : b = a ++ u) (h2 : c = b ++ v) : ∃ w, c = a ++ w :=
  ⟨u ++ v, by rw [h2, h1, List.append_assoc]⟩

/-- The stories insert loop never touches steps or runs and only appends
story rows. -/
theorem insertStoriesLoop_frame (runId : String) (now : Nat) :
    ∀ (l : List Json) (db : Db) (i : Nat) (seen : List Json),
      (insertStoriesLoop runId now db l i seen).1.steps = db.steps ∧
      (insertStoriesLoop runId now db l i seen).1.runs = db.runs ∧
      ∃ t, (insertStoriesLoop runId now db l i seen).1.stories =
        db.stories ++ t := by
  intro l
  induction l with
  | nil =>
    intro db i seen
    exact ⟨rfl, rfl, [], by simp [insertStoriesLoop]⟩
  | cons s rest ih =>
    intro db i seen
    simp only [insertStoriesLoop]
    split
    · exact ⟨rfl, rfl, [], by simp⟩
    · split
      · exact ⟨rfl, rfl, [], by simp⟩
      · split
        · exact ⟨rfl, rfl, [], by simp⟩
        · refine ⟨(ih _ _ _).1, (ih _ _ _).2.1, ?_⟩
          obtain ⟨t, h3⟩ := (ih _ _ _).2.2
          exact append_chain rfl h3

/-- The stories ingestion never touches steps or runs and only appends
story rows, whether it succeeds or throws. -/
theorem parseAndInsertStories_frame (db : Db) (output runId : String)
    (now : Nat) :
    (parseAndInsertStories db output runId now).1.steps = db.steps ∧
    (parseAndInsertStories db output runId now).1.runs = db.runs ∧
    ∃ t, (parseAndInsertStories db output runId now).1.stories =
      db.stories ++ t := by
  simp only [parseAndInsertStories]
  split
  · exact ⟨rfl, rfl, [], by simp⟩
  · split
    · exact ⟨rfl, rfl, [], by simp⟩
    · split
      · exact ⟨rfl, rfl, [], by simp⟩
      · exact insertStoriesLoop_frame runId now _ db 0 []
    · exact ⟨rfl, rfl, [], by simp⟩

/-- C6, amended: when completeStep surfaces an error past its run guard (a
STORIES_JSON validation failure), no step row is touched — the step stays
running — but the KEY-value merge into the run context has already been
written, and story rows inserted before the failing entry remain (the
operation is not transactional). -/
theorem storiesValidation_amended (db : Db) (stepId output : String)
    (now : Nat) (step : StepRow) (r : RunRow) (e : String)
    (hs : findStep db stepId = some step)
    (hr : findRun db step.runId = some r)
    (hrs : r.status ≠ .failed)
    (herr : (completeStep db stepId output now).2 = .error e) :
    (completeStep db stepId output now).1.steps = db.steps ∧
    (findRun (completeStep db stepId output now).1 step.runId).map
      (fun x => x.context) =
      some ((parseOutputKeyValues output).foldl
        (fun c kv => ctxSet c kv.1 kv.2) r.context) ∧
    ∃ t, (completeStep db stepId output now).1.stories = db.stories ++ t := by
  have hgf2 : (some r.status == some RunStatus.failed) = false := by
    cases hst : r.status
    · decide
    · decide
    · exact absurd hst hrs
    · decide
  unfold completeStep at herr ⊢
  rw [hs] at herr ⊢
  simp only [hr] at herr ⊢
  rcases hps : parseAndInsertStories (updateRuns db (fun x => x.id == step.runId)
      (fun x => { x with
        context := (parseOutputKeyValues output).foldl
          (fun c kv => ctxSet c kv.1 kv.2) r.context
        updatedAt := now })) output step.runId now with ⟨db2, res⟩
  cases res with
  | ok u =>
    rw [hps] at herr
    simp [hgf2] at herr
  | error e2 =>
    rw [hps] at herr
    simp only [Option.map_some', hgf2, Bool.false_eq_true, if_false] at herr ⊢
    have hframe := parseAndInsertStories_frame (updateRuns db
      (fun x => x.id == step.runId)
      (fun x => { x with
        context := (parseOutputKeyValues output).foldl
          (fun c kv => ctxSet c kv.1 kv.2) r.context
        updatedAt := now })) output step.runId now
    rw [hps] at hframe
    obtain ⟨hsteps, hruns, t, hstories⟩ := hframe
    refine ⟨hsteps, ?_, ⟨t, hstories⟩⟩
    have hfr : findRun db2 step.runId = findRun (updateRuns db
        (fun x => x.id == step.runId)
        (fun x => { x with
          context := (parseOutputKeyValues output).foldl
            (fun c kv => ctxSet c kv.1 kv.2) r.context
          updatedAt := now })) step.runId := by
      unfold findRun
      rw [hruns]
    rw [hfr, findRun_updateRuns_self db step.runId
      (fun x => { x with
        context := (parseOutputKeyValues output).foldl
          (fun c kv => ctxSet c kv.1 kv.2) r.context
        updatedAt := now }) (fun x => rfl), hr]
    rfl

/-- C6, witness for the amended theorem at the duplicate-id payload. -/
theorem storiesValidation_amended_witness :
    (completeStep dbRunningStep "s0" outDup 7).1.steps = dbRunningStep.steps ∧
    (findRun (completeStep dbRunningStep "s0" outDup 7).1
      (mkStep "s0" 0 .running).runId).map (fun x => x.context) =
      some ((parseOutputKeyValues outDup).foldl
        (fun c kv => ctxSet c kv.1 kv.2) (mkRun .running).context) ∧
    ∃ t, (completeStep dbRunningStep "s0" outDup 7).1.stories =
      dbRunningStep.stories ++ t :=
  storiesValidation_amended dbRunningStep "s0" outDup 7 (mkStep "s0" 0 .running)
    (mkRun .running) "STORIES_JSON has duplicate story id \"s1\"" (by decide)
    (by decide) (by decide) (by decide)

/-- C8: when the verify step of a verify-each loop completes with context
status (lowercased) retry, the most recently done story of the run has its
retry_count incremented; if that exceeds max_retries the story, the loop step
and the run are all marked failed, otherwise the story returns to pending,
verify_feedback (the issues key, or the whole output when absent) is stored
in the run context, and the loop step is set back to pending. -/
theorem verifyRetry_theorem (db : Db) (verifyStep : StepRow)
    (loopStepId : String) (output : String)
    (context : List (String × String)) (now : Nat)
    (st : StoryRow) (r : RunRow) (L : StepRow)
    (hstatus : (ctxGet context "status").map asciiToLower = some "retry")
    (hlast : maxByUpdated (db.stories.filter
      (fun s => s.runId == verifyStep.runId && s.status == .done)) = some st)
    (hrun : findRun db verifyStep.runId = some r)
    (hloop : findStep db loopStepId = some L) :
    (st.retryCount + 1 > st.maxRetries →
      (findStory (handleVerifyEachCompletion db verifyStep loopStepId output
          context now).1 st.id).map (fun s => (s.status, s.retryCount)) =
        some (StoryStatus.failed, st.retryCount + 1) ∧
      (findStep (handleVerifyEachCompletion db verifyStep loopStepId output
          context now).1 loopStepId).map (fun s => s.status) =
        some StepStatus.failed ∧
      (findRun (handleVerifyEachCompletion db verifyStep loopStepId output
          context now).1 verifyStep.runId).map (fun x => x.status) =
        some RunStatus.failed) ∧
    (¬ st.retryCount + 1 > st.maxRetries →
      (findStory (handleVerifyEachCompletion db verifyStep loopStepId output
          context now).1 st.id).map (fun s => (s.status, s.retryCount)) =
        some (StoryStatus.pending, st.retryCount + 1) ∧
      (findRun (handleVerifyEachCompletion db verifyStep loopStepId output
          context now).1 verifyStep.runId).map
        (fun x => ctxGet x.context "verify_feedback") =
        some (some ((ctxGet context "issues").getD output)) ∧
      (findStep (handleVerifyEachCompletion db verifyStep loopStepId output
          context now).1 loopStepId).map (fun s => s.status) =
        some StepStatus.pending) := by
  have hstmem : st ∈ db.stories :=
    List.mem_of_mem_filter (maxByUpdated_mem hlast)
  have hssome : (db.stories.find? (fun s => s.id == st.id)).isSome :=
    List.find?_isSome.mpr ⟨st, hstmem, beq_self_eq_true st.id⟩
  rcases Option.isSome_iff_exists.mp hssome with ⟨a0, ha0⟩
  have hlast2 : maxByUpdated (((updateSteps db
      (fun s => s.id == verifyStep.id)
      (fun s => { s with status := .waiting, output := some output, updatedAt := now })).stories).filter
      (fun s => s.runId == verifyStep.runId && s.status == .done)) = some st :=
    hlast
  unfold handleVerifyEachCompletion
  simp only [hstatus, beq_self_eq_true, if_true]
  rw [hlast2]
  dsimp only
  constructor
  · intro hex
    rw [if_pos hex]
    refine ⟨?_, ?_, ?_⟩
    · have e1 : findStory (updateRuns (updateSteps (updateStories
          (updateSteps db (fun s => s.id == verifyStep.id)
            (fun s => { s with status := .waiting, output := some output, updatedAt := now }))
          (fun s => s.id == st.id)
          (fun s => { s with status := .failed, retryCount := st.retryCount + 1, updatedAt := now }))
          (fun s => s.id == loopStepId)
          (fun s => { s with status := .failed, updatedAt := now }))
          (fun x => x.id == verifyStep.runId)
          (fun x => { x with status := .failed, updatedAt := now })) st.id =
          (findStory db st.id).map
            (fun s => { s with status := StoryStatus.failed, retryCount := st.retryCount + 1, updatedAt := now }) := by
        show findStory (updateStories (updateSteps db
          (fun s => s.id == verifyStep.id)
          (fun s => { s with status := .waiting, output := some output, updatedAt := now }))
          (fun s => s.id == st.id)
          (fun s => { s with status := .failed, retryCount := st.retryCount + 1, updatedAt := now })) st.id = _
        exact findStory_updateStories_self _ st.id _ (fun s => rfl)
      rw [e1]
      show ((db.stories.find? (fun s => s.id == st.id)).map _).map _ = _
      rw [ha0]
      rfl
    · have e2 : findStep (updateRuns (updateSteps (updateStories
          (updateSteps db (fun s => s.id == verifyStep.id)
            (fun s => { s with status := .waiting, output := some output, updatedAt := now }))
          (fun s => s.id == st.id)
          (fun s => { s with status := .failed, retryCount := st.retryCount + 1, updatedAt := now }))
          (fun s => s.id == loopStepId)
          (fun s => { s with status := .failed, updatedAt := now }))
          (fun x => x.id == verifyStep.runId)
          (fun x => { x with status := .failed, updatedAt := now }))
          loopStepId =
          ((findStep db loopStepId).map
            (fun s => if s.id == verifyStep.id then
              { s with status := StepStatus.waiting, output := some output, updatedAt := now } else s)).map
            (fun s => { s with status := StepStatus.failed, updatedAt := now }) := by
        show findStep (updateSteps (updateSteps db
          (fun s => s.id == verifyStep.id)
          (fun s => { s with status := .waiting, output := some output, updatedAt := now }))
          (fun s => s.id == loopStepId)
          (fun s => { s with status := .failed, updatedAt := now })) loopStepId = _
        rw [findStep_updateSteps_self (updateSteps db
            (fun s => s.id == verifyStep.id)
            (fun s => { s with status := .waiting, output := some output, updatedAt := now }))
          loopStepId
          (fun s => { s with status := StepStatus.failed, updatedAt := now })
          (fun s => rfl),
          findStep_updateSteps_other db loopStepId verifyStep.id
          (fun s => { s with status := StepStatus.waiting, output := some output, updatedAt := now })
          (fun s => rfl)]
      rw [e2, hloop]
      rfl
    · have e3 : findRun (updateRuns (updateSteps (updateStories
          (updateSteps db (fun s => s.id == verifyStep.id)
            (fun s => { s with status := .waiting, output := some output, updatedAt := now }))
          (fun s => s.id == st.id)
          (fun s => { s with status := .failed, retryCount := st.retryCount + 1, updatedAt := now }))
          (fun s => s.id == loopStepId)
          (fun s => { s with status := .failed, updatedAt := now }))
          (fun x => x.id == verifyStep.runId)
          (fun x => { x with status := .failed, updatedAt := now }))
          verifyStep.runId =
          (findRun db verifyStep.runId).map
            (fun x => { x with status := RunStatus.failed, updatedAt := now }) := by
        show findRun (updateRuns db
          (fun x => x.id == verifyStep.runId)
          (fun x => { x with status := .failed, updatedAt := now }))
          verifyStep.runId = _
        exact findRun_updateRuns_self db verifyStep.runId _ (fun x => rfl)
      rw [e3, hrun]
      rfl
  · intro hex
    rw [if_neg hex]
    refine ⟨?_, ?_, ?_⟩
    · have e1 : findStory (updateSteps (updateRuns (updateStories
          (updateSteps db (fun s => s.id == verifyStep.id)
            (fun s => { s with status := .waiting, output := some output, updatedAt := now }))
          (fun s => s.id == st.id)
          (fun s => { s with status := .pending, retryCount := st.retryCount + 1, updatedAt := now }))
          (fun x => x.id == verifyStep.runId)
          (fun x => { x with
            context := ctxSet context "verify_feedback"
              ((ctxGet context "issues").getD output)
            updatedAt := now }))
          (fun s => s.id == loopStepId)
          (fun s => { s with status := .pending, updatedAt := now })) st.id =
          (findStory db st.id).map
            (fun s => { s with status := StoryStatus.pending, retryCount := st.retryCount + 1, updatedAt := now }) := by
        show findStory (updateStories (updateSteps db
          (fun s => s.id == verifyStep.id)
          (fun s => { s with status := .waiting, output := some output, updatedAt := now }))
          (fun s => s.id == st.id)
          (fun s => { s with status := .pending, retryCount := st.retryCount + 1, updatedAt := now })) st.id = _
        exact findStory_updateStories_self _ st.id _ (fun s => rfl)
      rw [e1]
      show ((db.stories.find? (fun s => s.id == st.id)).map _).map _ = _
      rw [ha0]
      rfl
    · have e3 : findRun (updateSteps (updateRuns (updateStories
          (updateSteps db (fun s => s.id == verifyStep.id)
            (fun s => { s with status := .waiting, output := some output, updatedAt := now }))
          (fun s => s.id == st.id)
          (fun s => { s with status := .pending, retryCount := st.retryCount + 1, updatedAt := now }))
          (fun x => x.id == verifyStep.runId)
          (fun x => { x with
            context := ctxSet context "verify_feedback"
              ((ctxGet context "issues").getD output)
            updatedAt := now }))
          (fun s => s.id == loopStepId)
          (fun s => { s with status := .pending, updatedAt := now }))
          verifyStep.runId =
          (findRun db verifyStep.runId).map
            (fun x => { x with
              context := ctxSet context "verify_feedback"
                ((ctxGet context "issues").getD output)
              updatedAt := now }) := by
        show findRun (updateRuns db
          (fun x => x.id == verifyStep.runId)
          (fun x => { x with
            context := ctxSet context "verify_feedback"
              ((ctxGet context "issues").getD output)
            updatedAt := now })) verifyStep.runId = _
        exact findRun_updateRuns_self db verifyStep.runId _ (fun x => rfl)
      rw [e3, hrun]
      show some (ctxGet (ctxSet context "verify_feedback"
        ((ctxGet context "issues").getD output)) "verify_feedback") = _
      rw [ctxGet_ctxSet_self]
    · have e2 : findStep (updateSteps (updateRuns (updateStories
          (updateSteps db (fun s => s.id == verifyStep.id)
            (fun s => { s with status := .waiting, output := some output, updatedAt := now }))
          (fun s => s.id == st.id)
          (fun s => { s with status := .pending, retryCount := st.retryCount + 1, updatedAt := now }))
          (fun x => x.id == verifyStep.runId)
          (fun x => { x with
            context := ctxSet context "verify_feedback"
              ((ctxGet context "issues").getD output)
            updatedAt := now }))
          (fun s => s.id == loopStepId)
          (fun s => { s with status := .pending, updatedAt := now }))
          loopStepId =
          ((findStep db loopStepId).map
            (fun s => if s.id == verifyStep.id then
              { s with status := StepStatus.waiting, output := some output, updatedAt := now } else s)).map
            (fun s => { s with status := StepStatus.pending, updatedAt := now }) := by
        show findStep (updateSteps (updateSteps db
          (fun s => s.id == verifyStep.id)
          (fun s => { s with status := .waiting, output := some output, updatedAt := now }))
          (fun s => s.id == loopStepId)
          (fun s => { s with status := .pending, updatedAt := now })) loopStepId = _
        rw [findStep_updateSteps_self (updateSteps db
            (fun s => s.id == verifyStep.id)
            (fun s => { s with status := .waiting, output := some output, updatedAt := now }))
          loopStepId
          (fun s => { s with status := StepStatus.pending, updatedAt := now })
          (fun s => rfl),
          findStep_updateSteps_other db loopStepId verifyStep.id
          (fun s => { s with status := StepStatus.waiting, output := some output, updatedAt := now })
          (fun s => rfl)]
      rw [e2, hloop]
      rfl

/-- Fixture story row of run r1. -/
def mkStory (i : String) (st : StoryStatus) (rc mr upd : Nat) : StoryRow :=
  { id := i, runId := "r1", storyIndex := 0, storyId := .str "s1",
    title := .str "t", description := .str "d",
    acceptanceCriteria := [.str "a"], status := st, output := none,
    retryCount := rc, maxRetries := mr, updatedAt := upd }

/-- Context of a verify step that reported a retry with issues. -/
def ctxVerify : List (String × String) :=
  [("status", "RETRY"), ("issues", "missing test")]

/-- Database with a running run, a loop step, a verify step, and one done
story that has not used any retries. -/
def dbVerify : Db :=
  { runs := [mkRun .running],
    steps := [mkStep "L1" 1 .running, mkStep "v1" 2 .running],
    stories := [mkStory "st1" .done 0 2 3], sessions := [] }

/-- C8, witness: on the concrete retry scenario the story returns to pending
with retry_count one, the feedback is stored, and the loop step is pending. -/
theorem verifyRetry_witness :
    (findStory (handleVerifyEachCompletion dbVerify (mkStep "v1" 2 .running)
      "L1" "vout" ctxVerify 9).1 "st1").map
      (fun s => (s.status, s.retryCount)) = some (StoryStatus.pending, 1) ∧
    (findRun (handleVerifyEachCompletion dbVerify (mkStep "v1" 2 .running)
      "L1" "vout" ctxVerify 9).1 "r1").map
      (fun x => ctxGet x.context "verify_feedback") =
      some (some "missing test") ∧
    (findStep (handleVerifyEachCompletion dbVerify (mkStep "v1" 2 .running)
      "L1" "vout" ctxVerify 9).1 "L1").map (fun s => s.status) =
      some StepStatus.pending :=
  (verifyRetry_theorem dbVerify (mkStep "v1" 2 .running) "L1" "vout" ctxVerify 9
    (mkStory "st1" .done 0 2 3) (mkRun .running) (mkStep "L1" 1 .running)
    (by decide) rfl rfl rfl).2 (by decide)

def sweepFailFn (n now : Nat) : StepRow → StepRow := fun s =>
  { s with status := .failed, output := some ("Agent abandoned step without completing (" ++ toString n ++ " times)"), abandonedCount := n, updatedAt := now }

def sweepPendFn (n now : Nat) : StepRow → StepRow := fun s =>
  { s with status := .pending, abandonedCount := n, updatedAt := now }

def runFailFn (now : Nat) : RunRow → RunRow := fun r =>
  { r with status := .failed, updatedAt := now }

/-- C9: for a single (non-loop) step found abandoned by the sweeper — while
no abandoned story or stuck loop is found — the sweep increments
abandoned_count leaving retry_count untouched and resets the step to pending
with the run untouched; only when the step reaches MAX_ABANDON_RESETS (five)
abandonments are the step and its run marked failed. -/
theorem sweeperSingle_theorem (db : Db) (now thresholdMs : Nat) (s : StepRow)
    (r : RunRow)
    (hq : abandonedStepsQuery db now thresholdMs = [s])
    (htype : s.stepType ≠ "loop")
    (hnost : abandonedStoriesQuery db now thresholdMs = [])
    (hnoloop : ∀ t ∈ db.steps, t.stepType = "loop" → t.status ≠ .done)
    (huniq : ∀ t ∈ db.steps, t.id = s.id → t = s)
    (hrun : findRun db s.runId = some r) :
    (s.abandonedCount + 1 < MAX_ABANDON_RESETS →
      (findStep (cleanupAbandonedSteps db now thresholdMs) s.id).map
        (fun x => (x.status, x.abandonedCount, x.retryCount)) =
        some (StepStatus.pending, s.abandonedCount + 1, s.retryCount) ∧
      (findRun (cleanupAbandonedSteps db now thresholdMs) s.runId).map
        (fun x => x.status) = some r.status) ∧
    (s.abandonedCount + 1 ≥ MAX_ABANDON_RESETS →
      (findStep (cleanupAbandonedSteps db now thresholdMs) s.id).map
        (fun x => (x.status, x.abandonedCount, x.retryCount)) =
        some (StepStatus.failed, s.abandonedCount + 1, s.retryCount) ∧
      (findRun (cleanupAbandonedSteps db now thresholdMs) s.runId).map
        (fun x => x.status) = some RunStatus.failed) := by
  have h1 : (s.stepType == "loop") = false := beq_eq_false_iff_ne.mpr htype
  have hsweep : sweepOneStep db s now = sweepSingle db s now := by
    unfold sweepOneStep
    simp [h1]
  have hsmem : s ∈ db.steps := by
    have hmem : s ∈ abandonedStepsQuery db now thresholdMs := by
      rw [hq]
      exact List.mem_singleton.mpr rfl
    exact List.mem_of_mem_filter hmem
  have hfinds : findStep db s.id = some s := by
    rcases hfind : findStep db s.id with _ | a0
    · exfalso
      unfold findStep at hfind
      rw [List.find?_eq_none] at hfind
      exact (hfind s hsmem) (beq_self_eq_true s.id)
    · have hfind2 : db.steps.find? (fun t => t.id == s.id) = some a0 := hfind
      have ha0mem : a0 ∈ db.steps := List.mem_of_find?_eq_some hfind2
      have ha0id : a0.id = s.id := by
        have h := List.find?_some hfind2
        simpa using h
      rw [huniq a0 ha0mem ha0id]
  by_cases hge : s.abandonedCount + 1 ≥ MAX_ABANDON_RESETS
  · have hss : sweepSingle db s now = updateRuns (updateSteps db
        (fun x => x.id == s.id) (sweepFailFn (s.abandonedCount + 1) now))
        (fun x => x.id == s.runId) (runFailFn now) := by
      simp only [sweepSingle]
      rw [if_pos hge]
      rfl
    have h2 : abandonedStoriesQuery (sweepSingle db s now) now thresholdMs =
        [] := by
      rw [hss]
      exact hnost
    have h3 : stuckLoopsQuery (sweepSingle db s now) = [] := by
      rw [hss]
      unfold stuckLoopsQuery
      rw [List.filter_eq_nil_iff]
      intro t ht
      have ht2 : t ∈ db.steps.map (fun x => if x.id == s.id then
          sweepFailFn (s.abandonedCount + 1) now x else x) := ht
      rcases List.mem_map.mp ht2 with ⟨x, hx, rfl⟩
      by_cases hxid : (x.id == s.id) = true
      · rw [if_pos hxid]
        have hxs : x = s := huniq x hx (beq_iff_eq.mp hxid)
        rw [hxs]
        simp [sweepFailFn, h1]
      · rw [if_neg hxid]
        intro hpred
        simp only [Bool.and_eq_true] at hpred
        obtain ⟨⟨⟨⟨hA, hB⟩, _⟩, _⟩, _⟩ := hpred
        exact (hnoloop x hx (beq_iff_eq.mp hA)) (beq_iff_eq.mp hB)
    have hall : cleanupAbandonedSteps db now thresholdMs =
        sweepSingle db s now := by
      unfold cleanupAbandonedSteps
      rw [hq]
      simp only [List.foldl_cons, List.foldl_nil, hsweep, h2, h3,
        List.foldl_nil]
    constructor
    · intro hlt
      exact absurd hge (by omega)
    · intro _
      rw [hall, hss]
      constructor
      · have e1 : findStep (updateRuns (updateSteps db
            (fun x => x.id == s.id) (sweepFailFn (s.abandonedCount + 1) now))
            (fun x => x.id == s.runId) (runFailFn now)) s.id =
            (findStep db s.id).map (sweepFailFn (s.abandonedCount + 1) now) := by
          show findStep (updateSteps db (fun x => x.id == s.id)
            (sweepFailFn (s.abandonedCount + 1) now)) s.id = _
          exact findStep_updateSteps_self db s.id
            (sweepFailFn (s.abandonedCount + 1) now) (fun x => rfl)
        rw [e1, hfinds]
        rfl
      · have e2 : findRun (updateRuns (updateSteps db
            (fun x => x.id == s.id) (sweepFailFn (s.abandonedCount + 1) now))
            (fun x => x.id == s.runId) (runFailFn now)) s.runId =
            (findRun db s.runId).map (runFailFn now) := by
          show findRun (updateRuns db (fun x => x.id == s.runId)
            (runFailFn now)) s.runId = _
          exact findRun_updateRuns_self db s.runId (runFailFn now)
            (fun x => rfl)
        rw [e2, hrun]
        rfl
  · have hss : sweepSingle db s now = updateSteps db (fun x => x.id == s.id)
        (sweepPendFn (s.abandonedCount + 1) now) := by
      simp only [sweepSingle]
      rw [if_neg hge]
      rfl
    have h2 : abandonedStoriesQuery (sweepSingle db s now) now thresholdMs =
        [] := by
      rw [hss]
      exact hnost
    have h3 : stuckLoopsQuery (sweepSingle db s now) = [] := by
      rw [hss]
      unfold stuckLoopsQuery
      rw [List.filter_eq_nil_iff]
      intro t ht
      have ht2 : t ∈ db.steps.map (fun x => if x.id == s.id then
          sweepPendFn (s.abandonedCount + 1) now x else x) := ht
      rcases List.mem_map.mp ht2 with ⟨x, hx, rfl⟩
      by_cases hxid : (x.id == s.id) = true
      · rw [if_pos hxid]
        have hxs : x = s := huniq x hx (beq_iff_eq.mp hxid)
        rw [hxs]
        simp [sweepPendFn, h1]
      · rw [if_neg hxid]
        intro hpred
        simp only [Bool.and_eq_true] at hpred
        obtain ⟨⟨⟨⟨hA, hB⟩, _⟩, _⟩, _⟩ := hpred
        exact (hnoloop x hx (beq_iff_eq.mp hA)) (beq_iff_eq.mp hB)
    have hall : cleanupAbandonedSteps db now thresholdMs =
        sweepSingle db s now := by
      unfold cleanupAbandonedSteps
      rw [hq]
      simp only [List.foldl_cons, List.foldl_nil, hsweep, h2, h3,
        List.foldl_nil]
    constructor
    · intro _
      rw [hall, hss]
      constructor
      · have e1 : findStep (updateSteps db (fun x => x.id == s.id)
            (sweepPendFn (s.abandonedCount + 1) now)) s.id =
            (findStep db s.id).map (sweepPendFn (s.abandonedCount + 1) now) :=
          findStep_updateSteps_self db s.id
            (sweepPendFn (s.abandonedCount + 1) now) (fun x => rfl)
        rw [e1, hfinds]
        rfl
      · have e2 : findRun (updateSteps db (fun x => x.id == s.id)
            (sweepPendFn (s.abandonedCount + 1) now)) s.runId = some r := hrun
        rw [e2]
        rfl
    · intro hge2
      exact absurd hge2 hge

/-- Database with a running run and a single running step last updated at
time zero, seen by the sweeper at time ten with a five-millisecond
threshold. -/
def dbSweep : Db :=
  { runs := [mkRun .running], steps := [mkStep "s0" 0 .running],
    stories := [], sessions := [] }

/-- C9, witness: the sweep on the concrete abandoned step resets it to
pending with abandoned_count one and retry_count zero, leaving the run
running. -/
theorem sweeperSingle_witness :
    (findStep (cleanupAbandonedSteps dbSweep 10 5) "s0").map
      (fun x => (x.status, x.abandonedCount, x.retryCount)) =
      some (StepStatus.pending, 1, 0) ∧
    (findRun (cleanupAbandonedSteps dbSweep 10 5) "r1").map
      (fun x => x.status) = some RunStatus.running :=
  (sweeperSingle_theorem dbSweep 10 5 (mkStep "s0" 0 .running)
    (mkRun .running) (by decide) (by decide) rfl (by decide)
    (by decide) (by decide)).1 (by decide)

end Antfarm
